import Mathlib

/-!
Shallow embedding of the rice transient circuit simulator core:
a Modified Nodal Analysis engine that advances a lumped circuit through
time.  Rust `f64` arithmetic is idealized as exact rationals (`ℚ`), the
diode's exponential law as real arithmetic (`ℝ`); nalgebra's `DMatrix` is
embedded as a rectangular array with runtime dimensions; Rust panics
(`unwrap`) surface as `Option`/explicit stop values.
-/

/-- Dense rational matrix with runtime dimensions, embedding nalgebra's
`DMatrix<f64>`. -/
structure DMat where
  rows : Nat
  cols : Nat
  entry : Nat → Nat → ℚ

/-- `DMatrix::zeros(r, c)`. -/
def DMat.zeros (r c : Nat) : DMat := ⟨r, c, fun _ _ => 0⟩

/-- `DMatrix::get((i, j))`: `None` when the index is out of bounds. -/
def DMat.get (m : DMat) (i j : Nat) : Option ℚ :=
  if i < m.rows ∧ j < m.cols then some (m.entry i j) else none

/-- A write through `DMatrix::get_mut((i, j))`: applies `f` to the cell
when the index is in bounds and leaves the matrix unchanged otherwise. -/
def DMat.modify (m : DMat) (i j : Nat) (f : ℚ → ℚ) : DMat :=
  if i < m.rows ∧ j < m.cols then
    { m with entry := fun a b => if a = i ∧ b = j then f (m.entry a b) else m.entry a b }
  else m

/-- Matrix product (`inverse * b` in `BESolver::solve`). -/
def DMat.mul (x y : DMat) : DMat :=
  ⟨x.rows, y.cols, fun i j => (Finset.range x.cols).sum fun k => x.entry i k * y.entry k j⟩

/-- Determinant of the leading `n × n` block of an entry function, by
Laplace expansion along the first row. -/
def detAux : Nat → (Nat → Nat → ℚ) → ℚ
  | 0, _ => 1
  | n + 1, f =>
    (Finset.range (n + 1)).sum fun j =>
      (-1) ^ j * f 0 j * detAux n fun a b => f (a + 1) (if b < j then b else b + 1)

/-- Determinant of a square `DMat`. -/
def DMat.det (m : DMat) : ℚ := detAux m.rows m.entry

/-- Entry `(i, j)` of the classical adjugate inverse: the signed cofactor
obtained by deleting row `j` and column `i`, divided by the
determinant. -/
def DMat.cofactorInv (m : DMat) (i j : Nat) : ℚ :=
  (-1) ^ (i + j) *
      detAux (m.rows - 1)
        (fun a b => m.entry (if a < j then a else a + 1) (if b < i then b else b + 1)) /
    m.det

/-- nalgebra's `try_inverse`: `some` exactly when the square matrix is
invertible (nonzero determinant), computed as the adjugate divided by the
determinant. -/
def DMat.tryInverse (m : DMat) : Option DMat :=
  if m.rows = m.cols ∧ m.det ≠ 0 then
    some ⟨m.rows, m.rows, fun i j => m.cofactorInv i j⟩
  else none

/-! `be_solver/matrix.rs`: global equation/variable coordinates. -/

/-- `EquationIndex` of `be_solver/matrix.rs`. -/
inductive EquationIndex where
  | NodalEquation (idx : Nat)
  | VoltageSourceEquation (idx : Nat)
deriving DecidableEq

/-- `EquationIndex::into_row`. -/
def EquationIndex.into_row (e : EquationIndex) (num_nodes num_voltage_sources : Nat) :
    Option Nat :=
  match e with
  | .NodalEquation idx =>
      if idx = 0 then none
      else if idx > num_nodes then none
      else some (idx - 1)
  | .VoltageSourceEquation idx =>
      if idx ≥ num_voltage_sources then none
      else some (num_nodes + idx)

/-- `VariableIndex` of `be_solver/matrix.rs`. -/
inductive VariableIndex where
  | NodalVoltage (idx : Nat)
  | VoltageSourceCurrent (idx : Nat)
deriving DecidableEq

/-- `VariableIndex::into_col`. -/
def VariableIndex.into_col (v : VariableIndex) (num_nodes num_voltage_sources : Nat) :
    Option Nat :=
  match v with
  | .NodalVoltage idx =>
      if idx = 0 then none
      else if idx > num_nodes then none
      else some (idx - 1)
  | .VoltageSourceCurrent idx =>
      if idx ≥ num_voltage_sources then none
      else some (num_nodes + idx)

/-- `XMatrix` of `be_solver/matrix.rs`: the solution vector with its
dimensioning data. -/
structure XMatrix where
  x : DMat
  num_nodes : Nat
  num_voltage_sources : Nat

/-- `XMatrix::new`. -/
def XMatrix.new (x : DMat) (num_nodes num_voltage_sources : Nat) : XMatrix :=
  ⟨x, num_nodes, num_voltage_sources⟩

/-- `XMatrix::get_variable`. -/
def XMatrix.get_variable (s : XMatrix) (variable_index : VariableIndex) : Option ℚ :=
  match variable_index with
  | .NodalVoltage 0 => some 0
  | v => (v.into_col s.num_nodes s.num_voltage_sources).bind fun i => s.x.get i 0

/-- `ABMatrix` of `be_solver/matrix.rs`. -/
structure ABMatrix where
  a : DMat
  b : DMat
  num_nodes : Nat
  num_voltage_sources : Nat

/-- `ABMatrix::new`: zeroed `(n+m) × (n+m)` system and `(n+m) × 1`
right-hand side. -/
def ABMatrix.new (num_nodes num_voltage_sources : Nat) : ABMatrix :=
  ⟨DMat.zeros (num_nodes + num_voltage_sources) (num_nodes + num_voltage_sources),
   DMat.zeros (num_nodes + num_voltage_sources) 1,
   num_nodes, num_voltage_sources⟩

/-- Modelled from the spec: `ABMatrix::coefficient_add` is invoked by
`BESolver::solve`'s stamp helpers but its body is not among the sources
(`matrix.rs` only exposes `get_coefficient_mut`); commutative accumulation
into the addressed cell, mirroring `ABMatrixView::coefficient_add`. -/
def ABMatrix.coefficient_add (p : ABMatrix) (equation_index : EquationIndex)
    (variable_index : VariableIndex) (value : ℚ) : ABMatrix :=
  match equation_index.into_row p.num_nodes p.num_voltage_sources,
        variable_index.into_col p.num_nodes p.num_voltage_sources with
  | some r, some c => { p with a := p.a.modify r c (· + value) }
  | _, _ => p

/-- Modelled from the spec: `ABMatrix::result_add`, the right-hand-side
companion of `ABMatrix.coefficient_add` (body likewise not among the
sources), mirroring `ABMatrixView::result_add`. -/
def ABMatrix.result_add (p : ABMatrix) (equation_index : EquationIndex) (value : ℚ) :
    ABMatrix :=
  match equation_index.into_row p.num_nodes p.num_voltage_sources with
  | some r => { p with b := p.b.modify r 0 (· + value) }
  | none => p

/-- `ABMatrix::into_ab`. -/
def ABMatrix.into_ab (p : ABMatrix) : DMat × DMat := (p.a, p.b)

/-! `be_solver/matrix_view.rs`: scoped equation/variable coordinates and
the assembly / operating-point views handed to an element during a stamp. -/

/-- `ViewEquationIndex` of `be_solver/matrix_view.rs`. -/
inductive ViewEquationIndex where
  | NodalEquation (idx : Nat)
  | SpecificEquation (idx : Nat)
deriving DecidableEq

/-- `ViewEquationIndex::into_global_index`. -/
def ViewEquationIndex.into_global_index (e : ViewEquationIndex)
    (num_nodes num_variables variables_start : Nat) : Option Nat :=
  match e with
  | .NodalEquation idx =>
      if idx = 0 then none
      else if idx > num_nodes then none
      else some (idx - 1)
  | .SpecificEquation idx =>
      if idx ≥ num_variables then none
      else some (variables_start + idx)

/-- `ViewVariableIndex` of `be_solver/matrix_view.rs`. -/
inductive ViewVariableIndex where
  | NodeVoltage (idx : Nat)
  | SpecificVariable (idx : Nat)
deriving DecidableEq

/-- `ViewVariableIndex::into_global_index`. -/
def ViewVariableIndex.into_global_index (v : ViewVariableIndex)
    (num_nodes num_variables variables_start : Nat) : Option Nat :=
  match v with
  | .NodeVoltage idx =>
      if idx = 0 then none
      else if idx > num_nodes then none
      else some (idx - 1)
  | .SpecificVariable idx =>
      if idx ≥ num_variables then none
      else some (variables_start + idx)

/-- `ABMatrixView` of `be_solver/matrix_view.rs`: the borrowed global
matrices together with the node count, the element's own auxiliary count
and the absolute offset of its auxiliary slice. -/
structure ABMatrixView where
  a : DMat
  b : DMat
  num_nodes : Nat
  num_variables : Nat
  variables_start : Nat

/-- `ABMatrixView::coefficient_add`: translate both coordinates, then
accumulate; any failed translation (or out-of-bounds cell) is a silent
no-op. -/
def ABMatrixView.coefficient_add (v : ABMatrixView) (equation : ViewEquationIndex)
    (variable_index : ViewVariableIndex) (value : ℚ) : ABMatrixView :=
  match equation.into_global_index v.num_nodes v.num_variables v.variables_start,
        variable_index.into_global_index v.num_nodes v.num_variables v.variables_start with
  | some r, some c => { v with a := v.a.modify r c (· + value) }
  | _, _ => v

/-- `ABMatrixView::result_add`. -/
def ABMatrixView.result_add (v : ABMatrixView) (equation : ViewEquationIndex) (value : ℚ) :
    ABMatrixView :=
  match equation.into_global_index v.num_nodes v.num_variables v.variables_start with
  | some r => { v with b := v.b.modify r 0 (· + value) }
  | none => v

/-- `XMatrixView` of `be_solver/matrix_view.rs`: read-only view of the
most recent solution vector. -/
structure XMatrixView where
  x : DMat
  num_nodes : Nat
  num_variables : Nat
  variables_start : Nat

/-- `XMatrixView::get_variable`. -/
def XMatrixView.get_variable (s : XMatrixView) (variable_index : ViewVariableIndex) :
    Option ℚ :=
  match variable_index with
  | .NodeVoltage 0 => some 0
  | v => (v.into_global_index s.num_nodes s.num_variables s.variables_start).bind
      fun i => s.x.get i 0

/-! `components/`: the element models.  Each keeps its Rust fields;
`*_node` ids are `usize` in the source, hence `Nat` here. -/

/-- `Resistor` of `components/resistor.rs`. -/
structure Resistor where
  positive_node : Nat
  negative_node : Nat
  resistance : ℚ
  voltage : ℚ
deriving DecidableEq

/-- `Resistor::new`: stores the parameters verbatim, zero initial voltage. -/
def Resistor.new (positive_node negative_node : Nat) (resistance : ℚ) : Resistor :=
  ⟨positive_node, negative_node, resistance, 0⟩

/-- `Resistor::get_positive_node`. -/
def Resistor.get_positive_node (r : Resistor) : Nat := r.positive_node

/-- `Resistor::get_negative_node`. -/
def Resistor.get_negative_node (r : Resistor) : Nat := r.negative_node

/-- `Resistor::max_node`. -/
def Resistor.max_node (r : Resistor) : Nat :=
  max r.get_positive_node r.get_negative_node

/-- `Resistor::get_resistance`. -/
def Resistor.get_resistance (r : Resistor) : ℚ := r.resistance

/-- `Resistor::get_voltage`. -/
def Resistor.get_voltage (r : Resistor) : ℚ := r.voltage

/-- `Resistor::set_voltage`. -/
def Resistor.set_voltage (r : Resistor) (voltage : ℚ) : Resistor :=
  { r with voltage := voltage }

/-- `Resistor::get_current`: `v / R`. -/
def Resistor.get_current (r : Resistor) : ℚ := r.get_voltage / r.get_resistance

/-- `Resistor::get_power`: `v * i`. -/
def Resistor.get_power (r : Resistor) : ℚ := r.get_voltage * r.get_current

/-- `Capacitor` of `components/capacitor.rs`. -/
structure Capacitor where
  positive_node : Nat
  negative_node : Nat
  capacitance : ℚ
  voltage : ℚ
  current : ℚ
deriving DecidableEq

/-- `Capacitor::new`: stores the parameters and initial voltage verbatim,
zero initial current. -/
def Capacitor.new (positive_node negative_node : Nat) (capacitance initial_voltage : ℚ) :
    Capacitor :=
  ⟨positive_node, negative_node, capacitance, initial_voltage, 0⟩

/-- `Capacitor::get_positive_node`. -/
def Capacitor.get_positive_node (c : Capacitor) : Nat := c.positive_node

/-- `Capacitor::get_negative_node`. -/
def Capacitor.get_negative_node (c : Capacitor) : Nat := c.negative_node

/-- Modelled from the spec: `Capacitor::max_node` (called through
`Component::max_node` but absent from the capacitor source file), the
maximum of the two terminal node ids. -/
def Capacitor.max_node (c : Capacitor) : Nat :=
  max c.get_positive_node c.get_negative_node

/-- `Capacitor::get_capacitance`. -/
def Capacitor.get_capacitance (c : Capacitor) : ℚ := c.capacitance

/-- `Capacitor::get_voltage`. -/
def Capacitor.get_voltage (c : Capacitor) : ℚ := c.voltage

/-- `Capacitor::set_voltage`. -/
def Capacitor.set_voltage (c : Capacitor) (voltage : ℚ) : Capacitor :=
  { c with voltage := voltage }

/-- `Capacitor::get_current`. -/
def Capacitor.get_current (c : Capacitor) : ℚ := c.current

/-- `Capacitor::set_current`. -/
def Capacitor.set_current (c : Capacitor) (current : ℚ) : Capacitor :=
  { c with current := current }

/-- `Capacitor::get_power`. -/
def Capacitor.get_power (c : Capacitor) : ℚ := c.get_voltage * c.get_current

/-- `Inductor` of `components/inductor.rs`. -/
structure Inductor where
  positive_node : Nat
  negative_node : Nat
  inductance : ℚ
  current : ℚ
  voltage : ℚ
deriving DecidableEq

/-- `Inductor::new`: stores the parameters and initial current verbatim,
zero initial voltage. -/
def Inductor.new (positive_node negative_node : Nat) (inductance initial_current : ℚ) :
    Inductor :=
  ⟨positive_node, negative_node, inductance, initial_current, 0⟩

/-- `Inductor::get_positive_node`. -/
def Inductor.get_positive_node (l : Inductor) : Nat := l.positive_node

/-- `Inductor::get_negative_node`. -/
def Inductor.get_negative_node (l : Inductor) : Nat := l.negative_node

/-- Modelled from the spec: `Inductor::max_node` (called through
`Component::max_node` but absent from the inductor source file). -/
def Inductor.max_node (l : Inductor) : Nat :=
  max l.get_positive_node l.get_negative_node

/-- `Inductor::get_inductance`. -/
def Inductor.get_inductance (l : Inductor) : ℚ := l.inductance

/-- `Inductor::get_current`. -/
def Inductor.get_current (l : Inductor) : ℚ := l.current

/-- `Inductor::set_current`. -/
def Inductor.set_current (l : Inductor) (current : ℚ) : Inductor :=
  { l with current := current }

/-- `Inductor::get_voltage`. -/
def Inductor.get_voltage (l : Inductor) : ℚ := l.voltage

/-- `Inductor::set_voltage`. -/
def Inductor.set_voltage (l : Inductor) (voltage : ℚ) : Inductor :=
  { l with voltage := voltage }

/-- `Inductor::get_power`. -/
def Inductor.get_power (l : Inductor) : ℚ := l.get_voltage * l.get_current

/-- `VoltageSource` of `components/voltage_source.rs`. -/
structure VoltageSource where
  positive_node : Nat
  negative_node : Nat
  voltage : ℚ
  current : ℚ
deriving DecidableEq

/-- `VoltageSource::new`: stores the parameters verbatim, zero initial
current. -/
def VoltageSource.new (positive_node negative_node : Nat) (voltage : ℚ) : VoltageSource :=
  ⟨positive_node, negative_node, voltage, 0⟩

/-- `VoltageSource::get_positive_node`. -/
def VoltageSource.get_positive_node (v : VoltageSource) : Nat := v.positive_node

/-- `VoltageSource::get_negative_node`. -/
def VoltageSource.get_negative_node (v : VoltageSource) : Nat := v.negative_node

/-- Modelled from the spec: `VoltageSource::max_node` (called through
`Component::max_node` but absent from the voltage source file). -/
def VoltageSource.max_node (v : VoltageSource) : Nat :=
  max v.get_positive_node v.get_negative_node

/-- `VoltageSource::get_voltage`. -/
def VoltageSource.get_voltage (v : VoltageSource) : ℚ := v.voltage

/-- `VoltageSource::get_current`. -/
def VoltageSource.get_current (v : VoltageSource) : ℚ := v.current

/-- `VoltageSource::set_current`. -/
def VoltageSource.set_current (v : VoltageSource) (current : ℚ) : VoltageSource :=
  { v with current := current }

/-- `VoltageSource::get_power`. -/
def VoltageSource.get_power (v : VoltageSource) : ℚ := v.get_voltage * v.get_current

/-- `CurrentSource` of `components/current_source.rs`. -/
structure CurrentSource where
  positive_node : Nat
  negative_node : Nat
  current : ℚ
  voltage : ℚ
deriving DecidableEq

/-- `CurrentSource::new`: stores the parameters verbatim, zero initial
voltage. -/
def CurrentSource.new (positive_node negative_node : Nat) (current : ℚ) : CurrentSource :=
  ⟨positive_node, negative_node, current, 0⟩

/-- `CurrentSource::get_positive_node`. -/
def CurrentSource.get_positive_node (c : CurrentSource) : Nat := c.positive_node

/-- `CurrentSource::get_negative_node`. -/
def CurrentSource.get_negative_node (c : CurrentSource) : Nat := c.negative_node

/-- `CurrentSource::max_node`. -/
def CurrentSource.max_node (c : CurrentSource) : Nat :=
  max c.get_positive_node c.get_negative_node

/-- `CurrentSource::get_current`. -/
def CurrentSource.get_current (c : CurrentSource) : ℚ := c.current

/-- `CurrentSource::get_voltage`. -/
def CurrentSource.get_voltage (c : CurrentSource) : ℚ := c.voltage

/-- `CurrentSource::set_voltage`. -/
def CurrentSource.set_voltage (c : CurrentSource) (voltage : ℚ) : CurrentSource :=
  { c with voltage := voltage }

/-- `CurrentSource::get_power`. -/
def CurrentSource.get_power (c : CurrentSource) : ℚ := c.get_voltage * c.get_current

/-- `Diode` of `components/diode.rs`.  Its element law uses the real
exponential, so this model lives over `ℝ`. -/
structure Diode where
  positive_node : Nat
  negative_node : Nat
  reverse_saturation_current : ℝ
  ideality_factor : ℝ
  thermal_voltage : ℝ
  voltage : ℝ

/-- `Diode::new`: stores the parameters verbatim, zero initial voltage. -/
def Diode.new (positive_node negative_node : Nat)
    (reverse_saturation_current ideality_factor thermal_voltage : ℝ) : Diode :=
  ⟨positive_node, negative_node, reverse_saturation_current, ideality_factor,
   thermal_voltage, 0⟩

/-- `Diode::get_reverse_saturation_current`. -/
def Diode.get_reverse_saturation_current (d : Diode) : ℝ := d.reverse_saturation_current

/-- `Diode::get_ideality_factor`. -/
def Diode.get_ideality_factor (d : Diode) : ℝ := d.ideality_factor

/-- `Diode::get_thermal_voltage`. -/
def Diode.get_thermal_voltage (d : Diode) : ℝ := d.thermal_voltage

/-- `Diode::get_voltage`. -/
def Diode.get_voltage (d : Diode) : ℝ := d.voltage

/-- `Diode::set_voltage`. -/
def Diode.set_voltage (d : Diode) (voltage : ℝ) : Diode := { d with voltage := voltage }

/-- `Diode::get_current_with_voltage`:
`Is * (exp(v / (eta * Vt)) - 1)`. -/
noncomputable def Diode.get_current_with_voltage (d : Diode) (voltage : ℝ) : ℝ :=
  d.reverse_saturation_current *
    (Real.exp (voltage / (d.ideality_factor * d.thermal_voltage)) - 1)

/-- `Diode::get_current`: the element law evaluated at the stored
voltage. -/
noncomputable def Diode.get_current (d : Diode) : ℝ :=
  d.get_current_with_voltage d.voltage

/-- `Diode::get_di_dv`:
`(Is / (eta * Vt)) * exp(v / (eta * Vt))`. -/
noncomputable def Diode.get_di_dv (d : Diode) (voltage : ℝ) : ℝ :=
  (d.reverse_saturation_current / (d.ideality_factor * d.thermal_voltage)) *
    Real.exp (voltage / (d.ideality_factor * d.thermal_voltage))

/-- `Diode::get_power`. -/
noncomputable def Diode.get_power (d : Diode) : ℝ := d.get_voltage * d.get_current

/-! `be_solver/stampable.rs`: the per-element stamp/update protocol over
matrix views.  `stamp` threads the assembly view; `update` may hit an
`unwrap` on a failed variable lookup, so it returns an `Option`. -/

/-- `Resistor as Stampable::num_variables`. -/
def Resistor.num_variables (_ : Resistor) : Nat := 0

/-- `Resistor as Stampable::stamp`. -/
def Resistor.stamp (self : Resistor) (view : ABMatrixView) (_op_point : XMatrixView)
    (_dt : ℚ) : ABMatrixView :=
  let positive_equation_index := ViewEquationIndex.NodalEquation self.get_positive_node
  let negative_equation_index := ViewEquationIndex.NodalEquation self.get_negative_node
  let positive_voltage_index := ViewVariableIndex.NodeVoltage self.get_positive_node
  let negative_voltage_index := ViewVariableIndex.NodeVoltage self.get_negative_node
  let g := 1 / self.get_resistance
  let view := view.coefficient_add positive_equation_index positive_voltage_index g
  let view := view.coefficient_add positive_equation_index negative_voltage_index (-g)
  let view := view.coefficient_add negative_equation_index positive_voltage_index (-g)
  view.coefficient_add negative_equation_index negative_voltage_index g

/-- `Resistor as Stampable::update`. -/
def Resistor.update (self : Resistor) (view : XMatrixView) (_dt : ℚ) : Option Resistor := do
  let vp ← view.get_variable (ViewVariableIndex.NodeVoltage self.get_positive_node)
  let vn ← view.get_variable (ViewVariableIndex.NodeVoltage self.get_negative_node)
  some (self.set_voltage (vp - vn))

/-- `Capacitor as Stampable::num_variables`. -/
def Capacitor.num_variables (_ : Capacitor) : Nat := 0

/-- `Capacitor as Stampable::stamp`: Backward Euler on `i = C dv/dt`. -/
def Capacitor.stamp (self : Capacitor) (view : ABMatrixView) (_op_point : XMatrixView)
    (dt : ℚ) : ABMatrixView :=
  let positive_equation_index := ViewEquationIndex.NodalEquation self.get_positive_node
  let negative_equation_index := ViewEquationIndex.NodalEquation self.get_negative_node
  let positive_voltage_index := ViewVariableIndex.NodeVoltage self.get_positive_node
  let negative_voltage_index := ViewVariableIndex.NodeVoltage self.get_negative_node
  let c := self.get_capacitance
  let view := view.coefficient_add positive_equation_index positive_voltage_index (c / dt)
  let view := view.coefficient_add positive_equation_index negative_voltage_index (-c / dt)
  let view := view.result_add positive_equation_index (c * self.get_voltage / dt)
  let view := view.coefficient_add negative_equation_index positive_voltage_index (-c / dt)
  let view := view.coefficient_add negative_equation_index negative_voltage_index (c / dt)
  view.result_add negative_equation_index (-c * self.get_voltage / dt)

/-- `Capacitor as Stampable::update`: the current is computed from the
still-stored previous voltage before the voltage is overwritten. -/
def Capacitor.update (self : Capacitor) (view : XMatrixView) (dt : ℚ) : Option Capacitor := do
  let vp ← view.get_variable (ViewVariableIndex.NodeVoltage self.get_positive_node)
  let vn ← view.get_variable (ViewVariableIndex.NodeVoltage self.get_negative_node)
  let new_voltage := vp - vn
  let self := self.set_current (self.get_capacitance * (new_voltage - self.get_voltage) / dt)
  some (self.set_voltage new_voltage)

/-- `Inductor as Stampable::num_variables`. -/
def Inductor.num_variables (_ : Inductor) : Nat := 0

/-- `Inductor as Stampable::stamp`: Backward Euler on `v = L di/dt` as a
Norton equivalent. -/
def Inductor.stamp (self : Inductor) (view : ABMatrixView) (_op_point : XMatrixView)
    (dt : ℚ) : ABMatrixView :=
  let positive_equation_index := ViewEquationIndex.NodalEquation self.get_positive_node
  let negative_equation_index := ViewEquationIndex.NodalEquation self.get_negative_node
  let positive_voltage_index := ViewVariableIndex.NodeVoltage self.get_positive_node
  let negative_voltage_index := ViewVariableIndex.NodeVoltage self.get_negative_node
  let l := self.get_inductance
  let view := view.coefficient_add positive_equation_index positive_voltage_index (dt / l)
  let view := view.coefficient_add positive_equation_index negative_voltage_index (-dt / l)
  let view := view.result_add positive_equation_index (-self.get_current)
  let view := view.coefficient_add negative_equation_index positive_voltage_index (-dt / l)
  let view := view.coefficient_add negative_equation_index negative_voltage_index (dt / l)
  view.result_add negative_equation_index self.get_current

/-- `Inductor as Stampable::update`: the voltage is written first, then
the current is advanced using the freshly written voltage and the
previous current. -/
def Inductor.update (self : Inductor) (view : XMatrixView) (dt : ℚ) : Option Inductor := do
  let vp ← view.get_variable (ViewVariableIndex.NodeVoltage self.get_positive_node)
  let vn ← view.get_variable (ViewVariableIndex.NodeVoltage self.get_negative_node)
  let self := self.set_voltage (vp - vn)
  some (self.set_current (self.get_voltage * dt / self.get_inductance + self.get_current))

/-- `VoltageSource as Stampable::num_variables`: one auxiliary variable,
the source current. -/
def VoltageSource.num_variables (_ : VoltageSource) : Nat := 1

/-- `VoltageSource as Stampable::stamp`. -/
def VoltageSource.stamp (self : VoltageSource) (view : ABMatrixView)
    (_op_point : XMatrixView) (_dt : ℚ) : ABMatrixView :=
  let positive_equation_index := ViewEquationIndex.NodalEquation self.get_positive_node
  let negative_equation_index := ViewEquationIndex.NodalEquation self.get_negative_node
  let specific_equation_index := ViewEquationIndex.SpecificEquation 0
  let positive_voltage_index := ViewVariableIndex.NodeVoltage self.get_positive_node
  let negative_voltage_index := ViewVariableIndex.NodeVoltage self.get_negative_node
  let current_index := ViewVariableIndex.SpecificVariable 0
  let view := view.coefficient_add positive_equation_index current_index (-1)
  let view := view.coefficient_add negative_equation_index current_index 1
  let view := view.coefficient_add specific_equation_index positive_voltage_index 1
  let view := view.coefficient_add specific_equation_index negative_voltage_index (-1)
  view.result_add specific_equation_index self.get_voltage

/-- `VoltageSource as Stampable::update`. -/
def VoltageSource.update (self : VoltageSource) (view : XMatrixView) (_dt : ℚ) :
    Option VoltageSource := do
  let i ← view.get_variable (ViewVariableIndex.SpecificVariable 0)
  some (self.set_current i)

/-- `CurrentSource as Stampable::num_variables`. -/
def CurrentSource.num_variables (_ : CurrentSource) : Nat := 0

/-- `CurrentSource as Stampable::stamp`. -/
def CurrentSource.stamp (self : CurrentSource) (view : ABMatrixView)
    (_op_point : XMatrixView) (_dt : ℚ) : ABMatrixView :=
  let positive_equation_index := ViewEquationIndex.NodalEquation self.get_positive_node
  let negative_equation_index := ViewEquationIndex.NodalEquation self.get_negative_node
  let view := view.result_add positive_equation_index self.get_current
  view.result_add negative_equation_index (-self.get_current)

/-- `CurrentSource as Stampable::update`. -/
def CurrentSource.update (self : CurrentSource) (view : XMatrixView) (_dt : ℚ) :
    Option CurrentSource := do
  let vp ← view.get_variable (ViewVariableIndex.NodeVoltage self.get_positive_node)
  let vn ← view.get_variable (ViewVariableIndex.NodeVoltage self.get_negative_node)
  some (self.set_voltage (vp - vn))

/-- `Component` of `components/component.rs`: the closed tagged variant
over the five solver-integrated element kinds. -/
inductive Component where
  | Resistor (c : Resistor)
  | Capacitor (c : Capacitor)
  | Inductor (c : Inductor)
  | VoltageSource (c : VoltageSource)
  | CurrentSource (c : CurrentSource)
deriving DecidableEq

/-- `Component::max_node`. -/
def Component.max_node (c : Component) : Nat :=
  match c with
  | .Resistor c => c.max_node
  | .Capacitor c => c.max_node
  | .Inductor c => c.max_node
  | .VoltageSource c => c.max_node
  | .CurrentSource c => c.max_node

/-- `Component as Stampable::num_variables`. -/
def Component.num_variables (c : Component) : Nat :=
  match c with
  | .Resistor c => c.num_variables
  | .Capacitor c => c.num_variables
  | .Inductor c => c.num_variables
  | .VoltageSource c => c.num_variables
  | .CurrentSource c => c.num_variables

/-- `Component as Stampable::stamp`. -/
def Component.stamp (c : Component) (view : ABMatrixView) (op_point : XMatrixView)
    (dt : ℚ) : ABMatrixView :=
  match c with
  | .Resistor c => c.stamp view op_point dt
  | .Capacitor c => c.stamp view op_point dt
  | .Inductor c => c.stamp view op_point dt
  | .VoltageSource c => c.stamp view op_point dt
  | .CurrentSource c => c.stamp view op_point dt

/-- `Component as Stampable::update`. -/
def Component.update (c : Component) (view : XMatrixView) (dt : ℚ) : Option Component :=
  match c with
  | .Resistor c => (c.update view dt).map Component.Resistor
  | .Capacitor c => (c.update view dt).map Component.Capacitor
  | .Inductor c => (c.update view dt).map Component.Inductor
  | .VoltageSource c => (c.update view dt).map Component.VoltageSource
  | .CurrentSource c => (c.update view dt).map Component.CurrentSource

/-! `be_solver/mod.rs`: the Backward Euler solver driver. -/

/-- Modelled from the spec: the netlist revision driven by
`BESolver::solve` — ordered collections of each element kind (accessed in
the driver through `get_resistors`, `get_capacitors`,
`get_voltages_sources`, `get_current_sources`); this revision of the
netlist module is not among the sources. -/
structure SolverNetlist where
  resistors : List Resistor
  capacitors : List Capacitor
  voltage_sources : List VoltageSource
  current_sources : List CurrentSource
deriving DecidableEq

/-- Modelled from the spec: the node count is the maximum node id
referenced by any element (zero for an empty netlist), as
`components/mod.rs` computes it collection by collection. -/
def SolverNetlist.get_num_nodes (nl : SolverNetlist) : Nat :=
  let max_r := (nl.resistors.map Resistor.max_node).foldr max 0
  let max_c := (nl.capacitors.map Capacitor.max_node).foldr max 0
  let max_v := (nl.voltage_sources.map VoltageSource.max_node).foldr max 0
  let max_i := (nl.current_sources.map CurrentSource.max_node).foldr max 0
  max (max max_r max_c) (max max_v max_i)

/-- `BESolver::stamp_resistor`. -/
def BESolver.stamp_resistor (resistor : Resistor) (_resistor_index : Nat)
    (problem : ABMatrix) (_dt : ℚ) : ABMatrix :=
  let positive_equation_index := EquationIndex.NodalEquation resistor.get_positive_node
  let negative_equation_index := EquationIndex.NodalEquation resistor.get_negative_node
  let positive_voltage_index := VariableIndex.NodalVoltage resistor.get_positive_node
  let negative_voltage_index := VariableIndex.NodalVoltage resistor.get_negative_node
  let g := 1 / resistor.get_resistance
  let problem := problem.coefficient_add positive_equation_index positive_voltage_index g
  let problem := problem.coefficient_add positive_equation_index negative_voltage_index (-g)
  let problem := problem.coefficient_add negative_equation_index positive_voltage_index (-g)
  problem.coefficient_add negative_equation_index negative_voltage_index g

/-- `BESolver::stamp_capacitor`. -/
def BESolver.stamp_capacitor (capacitor : Capacitor) (_capacitor_index : Nat)
    (problem : ABMatrix) (dt : ℚ) : ABMatrix :=
  let positive_equation_index := EquationIndex.NodalEquation capacitor.get_positive_node
  let negative_equation_index := EquationIndex.NodalEquation capacitor.get_negative_node
  let positive_voltage_index := VariableIndex.NodalVoltage capacitor.get_positive_node
  let negative_voltage_index := VariableIndex.NodalVoltage capacitor.get_negative_node
  let c := capacitor.get_capacitance
  let problem := problem.coefficient_add positive_equation_index positive_voltage_index (c / dt)
  let problem := problem.coefficient_add positive_equation_index negative_voltage_index (-c / dt)
  let problem := problem.result_add positive_equation_index (c * capacitor.get_voltage / dt)
  let problem := problem.coefficient_add negative_equation_index positive_voltage_index (-c / dt)
  let problem := problem.coefficient_add negative_equation_index negative_voltage_index (c / dt)
  problem.result_add negative_equation_index (-c * capacitor.get_voltage / dt)

/-- `BESolver::stamp_voltage_source`. -/
def BESolver.stamp_voltage_source (voltage_source : VoltageSource)
    (voltage_source_index : Nat) (problem : ABMatrix) (_dt : ℚ) : ABMatrix :=
  let positive_equation_index := EquationIndex.NodalEquation voltage_source.get_positive_node
  let negative_equation_index := EquationIndex.NodalEquation voltage_source.get_negative_node
  let source_equation_index := EquationIndex.VoltageSourceEquation voltage_source_index
  let positive_voltage_index := VariableIndex.NodalVoltage voltage_source.get_positive_node
  let negative_voltage_index := VariableIndex.NodalVoltage voltage_source.get_negative_node
  let source_current_index := VariableIndex.VoltageSourceCurrent voltage_source_index
  let problem := problem.coefficient_add positive_equation_index source_current_index (-1)
  let problem := problem.coefficient_add negative_equation_index source_current_index 1
  let problem := problem.coefficient_add source_equation_index positive_voltage_index 1
  let problem := problem.coefficient_add source_equation_index negative_voltage_index (-1)
  problem.result_add source_equation_index voltage_source.get_voltage

/-- `BESolver::stamp_current_source`. -/
def BESolver.stamp_current_source (current_source : CurrentSource)
    (_current_source_index : Nat) (problem : ABMatrix) (_dt : ℚ) : ABMatrix :=
  let positive_equation_index := EquationIndex.NodalEquation current_source.get_positive_node
  let negative_equation_index := EquationIndex.NodalEquation current_source.get_negative_node
  let problem := problem.result_add positive_equation_index current_source.get_current
  problem.result_add negative_equation_index (-current_source.get_current)

/-- `BESolver::update_resistor` (`unwrap` on a failed lookup becomes
`none`). -/
def BESolver.update_resistor (resistor : Resistor) (_resistor_index : Nat)
    (solution : XMatrix) (_dt : ℚ) : Option Resistor := do
  let vp ← solution.get_variable (VariableIndex.NodalVoltage resistor.get_positive_node)
  let vn ← solution.get_variable (VariableIndex.NodalVoltage resistor.get_negative_node)
  some (resistor.set_voltage (vp - vn))

/-- `BESolver::update_capacitor`. -/
def BESolver.update_capacitor (capacitor : Capacitor) (_capacitor_index : Nat)
    (solution : XMatrix) (dt : ℚ) : Option Capacitor := do
  let vp ← solution.get_variable (VariableIndex.NodalVoltage capacitor.get_positive_node)
  let vn ← solution.get_variable (VariableIndex.NodalVoltage capacitor.get_negative_node)
  let new_voltage := vp - vn
  let capacitor := capacitor.set_current
    (capacitor.get_capacitance * (new_voltage - capacitor.get_voltage) / dt)
  some (capacitor.set_voltage new_voltage)

/-- `BESolver::update_voltage_source`. -/
def BESolver.update_voltage_source (voltage_source : VoltageSource)
    (voltage_source_index : Nat) (solution : XMatrix) (_dt : ℚ) : Option VoltageSource := do
  let i ← solution.get_variable (VariableIndex.VoltageSourceCurrent voltage_source_index)
  some (voltage_source.set_current i)

/-- `BESolver::update_current_source`. -/
def BESolver.update_current_source (current_source : CurrentSource)
    (_current_source_index : Nat) (solution : XMatrix) (_dt : ℚ) : Option CurrentSource := do
  let vp ← solution.get_variable (VariableIndex.NodalVoltage current_source.get_positive_node)
  let vn ← solution.get_variable (VariableIndex.NodalVoltage current_source.get_negative_node)
  some (current_source.set_voltage (vp - vn))

/-- An enumerated in-place update pass over one element collection.  A
`none` from `f` is an `unwrap` panic: the already-updated prefix keeps its
new values, the rest stays untouched, and the flag reports the abort. -/
def updateList {α : Type} (f : α → Nat → Option α) : List α → Nat → List α × Bool
  | [], _ => ([], true)
  | x :: xs, i =>
    match f x i with
    | none => (x :: xs, false)
    | some x' =>
      let rest := updateList f xs (i + 1)
      (x' :: rest.1, rest.2)

/-- How a `BESolver::solve` call can abort: the `unwrap` on
`try_inverse` (singular system) or an `unwrap` inside the update pass. -/
inductive SolveStop where
  | singularPanic
  | updatePanic
deriving DecidableEq

/-- `BESolver::solve`: size the system, stamp every element group in
insertion order, invert `A`, and run the post-solve update passes.  The
returned netlist is the state when the call finishes or panics, paired
with the abort kind if any. -/
def BESolver.solve (nl : SolverNetlist) (dt : ℚ) : SolverNetlist × Option SolveStop :=
  let num_nodes := nl.get_num_nodes
  let num_voltage_sources := nl.voltage_sources.length
  let problem := ABMatrix.new num_nodes num_voltage_sources
  let problem := nl.resistors.enum.foldl
    (fun p ic => BESolver.stamp_resistor ic.2 ic.1 p dt) problem
  let problem := nl.capacitors.enum.foldl
    (fun p ic => BESolver.stamp_capacitor ic.2 ic.1 p dt) problem
  let problem := nl.voltage_sources.enum.foldl
    (fun p ic => BESolver.stamp_voltage_source ic.2 ic.1 p dt) problem
  let problem := nl.current_sources.enum.foldl
    (fun p ic => BESolver.stamp_current_source ic.2 ic.1 p dt) problem
  match (problem.into_ab).1.tryInverse with
  | none => (nl, some SolveStop.singularPanic)
  | some ainv =>
    let solution := XMatrix.new (ainv.mul (problem.into_ab).2) num_nodes num_voltage_sources
    let ru := updateList (fun r i => BESolver.update_resistor r i solution dt) nl.resistors 0
    if ru.2 then
      let cu := updateList (fun c i => BESolver.update_capacitor c i solution dt)
        nl.capacitors 0
      if cu.2 then
        let vu := updateList (fun v i => BESolver.update_voltage_source v i solution dt)
          nl.voltage_sources 0
        if vu.2 then
          let iu := updateList (fun c i => BESolver.update_current_source c i solution dt)
            nl.current_sources 0
          if iu.2 then
            ({ resistors := ru.1, capacitors := cu.1, voltage_sources := vu.1,
               current_sources := iu.1 }, none)
          else
            ({ resistors := ru.1, capacitors := cu.1, voltage_sources := vu.1,
               current_sources := iu.1 }, some SolveStop.updatePanic)
        else
          ({ nl with resistors := ru.1, capacitors := cu.1, voltage_sources := vu.1 },
           some SolveStop.updatePanic)
      else
        ({ nl with resistors := ru.1, capacitors := cu.1 }, some SolveStop.updatePanic)
    else
      ({ nl with resistors := ru.1 }, some SolveStop.updatePanic)

/-! The Newton iteration driver.  The sources under `src/` contain only
the single-solve driver above; the Newton loop that wraps re-assembly and
the dense solve is specified but its code is not among the sources, so it
is modelled from the spec below. -/

/-- Errors surfaced by the Newton driver (spec §7): a singular system, or
the iteration cap reached, carrying the last iterate. -/
inductive NewtonError where
  | SingularMatrix
  | NonConvergence (x : List ℚ)
deriving DecidableEq

/-- Modelled from the spec: the convergence metric of §4.5 step 3d — the
component-wise relative change `|x'_i - x_i| / |x'_i|` of the new iterate
against the previous one, falling back to the absolute change where the
new component is zero (the divide-by-zero guard), maximized over all
components. -/
def relChange (x x' : List ℚ) : ℚ :=
  (List.zipWith (fun xi xi' => if xi' = 0 then |xi' - xi| else |xi' - xi| / |xi'|) x x').foldr
    max 0

/-- Modelled from the spec: the Newton loop of §4.5 step 3, which is not
among the sources.  `step` performs one re-assembly of `A` and `b` from
the current iterate followed by the dense linear solve (steps 3a–3c,
`none` when `A` is singular); `fuel` counts the iterations still allowed
before the cap.  Each round solves for `x'`, compares it to the previous
`x` through `relChange` against the fixed relative tolerance `10⁻⁴`, stops
with `x'` on convergence, and once the cap is exhausted fails with
`NonConvergence` carrying the last iterate. -/
def newtonLoop (step : List ℚ → Option (List ℚ)) : Nat → List ℚ → Except NewtonError (List ℚ)
  | 0, x => Except.error (NewtonError.NonConvergence x)
  | Nat.succ fuel, x =>
    match step x with
    | none => Except.error NewtonError.SingularMatrix
    | some x' =>
      if relChange x x' < 1 / 10000 then Except.ok x' else newtonLoop step fuel x'

/-- Modelled from the spec: the full Newton solve with the iteration cap
fixed at 1000. -/
def newtonSolve (step : List ℚ → Option (List ℚ)) (x0 : List ℚ) :
    Except NewtonError (List ℚ) :=
  newtonLoop step 1000 x0

/-- `n`-fold iteration of the assemble-and-solve step (`none` as soon as
any round is singular); used to name the iterates the Newton loop walks
through. -/
def stepN (step : List ℚ → Option (List ℚ)) : Nat → List ℚ → Option (List ℚ)
  | 0, x => some x
  | Nat.succ n, x => (step x).bind (stepN step n)

/-- Modelled from the spec: the driver's running auxiliary offset walk
(§4.5 step 3b, not among the sources) — each element in netlist order is
given the current offset, which then advances by the element's declared
auxiliary count. -/
def auxOffsets (cs : List Component) (start : Nat) : List Nat :=
  match cs with
  | [] => []
  | c :: rest => start :: auxOffsets rest (start + c.num_variables)

/-- Whether a component is a voltage source (used to count the voltage
sources preceding a position in insertion order). -/
def Component.isVoltageSource (c : Component) : Bool :=
  match c with
  | .VoltageSource _ => true
  | _ => false

/-! Helper lemmas about the matrix cells and coordinate translation. -/

theorem DMat.modify_rows (m : DMat) (i j : Nat) (f : ℚ → ℚ) :
    (m.modify i j f).rows = m.rows := by
  unfold DMat.modify; split <;> rfl

theorem DMat.modify_cols (m : DMat) (i j : Nat) (f : ℚ → ℚ) :
    (m.modify i j f).cols = m.cols := by
  unfold DMat.modify; split <;> rfl

theorem DMat.modify_entry_self (m : DMat) (i j : Nat) (f : ℚ → ℚ)
    (hi : i < m.rows) (hj : j < m.cols) :
    (m.modify i j f).entry i j = f (m.entry i j) := by
  unfold DMat.modify
  rw [if_pos ⟨hi, hj⟩]
  simp

theorem DMat.modify_entry_ne (m : DMat) (i j a b : Nat) (f : ℚ → ℚ)
    (h : ¬(a = i ∧ b = j)) :
    (m.modify i j f).entry a b = m.entry a b := by
  unfold DMat.modify
  split
  · dsimp only
    rw [if_neg h]
  · rfl

theorem DMat.get_in_bounds (m : DMat) (i j : Nat) (hi : i < m.rows) (hj : j < m.cols) :
    m.get i j = some (m.entry i j) := by
  unfold DMat.get
  exact if_pos ⟨hi, hj⟩

theorem ViewEquationIndex.into_global_eq_nodal (N m s k : Nat) (h1 : 1 ≤ k) (h2 : k ≤ N) :
    (ViewEquationIndex.NodalEquation k).into_global_index N m s = some (k - 1) := by
  simp only [ViewEquationIndex.into_global_index]
  rw [if_neg (by omega : ¬k = 0), if_neg (by omega : ¬k > N)]

theorem ViewEquationIndex.into_global_eq_ground (N m s : Nat) :
    (ViewEquationIndex.NodalEquation 0).into_global_index N m s = none := rfl

theorem ViewEquationIndex.into_global_eq_high (N m s k : Nat) (h : N < k) :
    (ViewEquationIndex.NodalEquation k).into_global_index N m s = none := by
  simp only [ViewEquationIndex.into_global_index]
  rw [if_neg (by omega : ¬k = 0), if_pos (by omega : k > N)]

theorem ViewEquationIndex.into_global_eq_specific (N m s j : Nat) (h : j < m) :
    (ViewEquationIndex.SpecificEquation j).into_global_index N m s = some (s + j) := by
  simp only [ViewEquationIndex.into_global_index]
  rw [if_neg (by omega : ¬j ≥ m)]

theorem ViewEquationIndex.into_global_eq_specific_high (N m s j : Nat) (h : m ≤ j) :
    (ViewEquationIndex.SpecificEquation j).into_global_index N m s = none := by
  simp only [ViewEquationIndex.into_global_index]
  rw [if_pos (by omega : j ≥ m)]

theorem ViewVariableIndex.into_global_var_nodal (N m s k : Nat) (h1 : 1 ≤ k) (h2 : k ≤ N) :
    (ViewVariableIndex.NodeVoltage k).into_global_index N m s = some (k - 1) := by
  simp only [ViewVariableIndex.into_global_index]
  rw [if_neg (by omega : ¬k = 0), if_neg (by omega : ¬k > N)]

theorem ViewVariableIndex.into_global_var_ground (N m s : Nat) :
    (ViewVariableIndex.NodeVoltage 0).into_global_index N m s = none := rfl

theorem ViewVariableIndex.into_global_var_high (N m s k : Nat) (h : N < k) :
    (ViewVariableIndex.NodeVoltage k).into_global_index N m s = none := by
  simp only [ViewVariableIndex.into_global_index]
  rw [if_neg (by omega : ¬k = 0), if_pos (by omega : k > N)]

theorem ViewVariableIndex.into_global_var_specific (N m s j : Nat) (h : j < m) :
    (ViewVariableIndex.SpecificVariable j).into_global_index N m s = some (s + j) := by
  simp only [ViewVariableIndex.into_global_index]
  rw [if_neg (by omega : ¬j ≥ m)]

theorem ViewVariableIndex.into_global_var_specific_high (N m s j : Nat) (h : m ≤ j) :
    (ViewVariableIndex.SpecificVariable j).into_global_index N m s = none := by
  simp only [ViewVariableIndex.into_global_index]
  rw [if_pos (by omega : j ≥ m)]

theorem ABMatrixView.coefficient_add_some (v : ABMatrixView) (e : ViewEquationIndex)
    (w : ViewVariableIndex) (value : ℚ) (r c : Nat)
    (hr : e.into_global_index v.num_nodes v.num_variables v.variables_start = some r)
    (hc : w.into_global_index v.num_nodes v.num_variables v.variables_start = some c) :
    v.coefficient_add e w value = { v with a := v.a.modify r c (· + value) } := by
  unfold ABMatrixView.coefficient_add
  rw [hr, hc]

theorem ABMatrixView.coefficient_add_noop_eq (v : ABMatrixView) (e : ViewEquationIndex)
    (w : ViewVariableIndex) (value : ℚ)
    (he : e.into_global_index v.num_nodes v.num_variables v.variables_start = none) :
    v.coefficient_add e w value = v := by
  unfold ABMatrixView.coefficient_add
  rw [he]

theorem ABMatrixView.coefficient_add_noop_var (v : ABMatrixView) (e : ViewEquationIndex)
    (w : ViewVariableIndex) (value : ℚ)
    (hw : w.into_global_index v.num_nodes v.num_variables v.variables_start = none) :
    v.coefficient_add e w value = v := by
  unfold ABMatrixView.coefficient_add
  rw [hw]
  cases e.into_global_index v.num_nodes v.num_variables v.variables_start <;> rfl

theorem ABMatrixView.result_add_some (v : ABMatrixView) (e : ViewEquationIndex) (value : ℚ)
    (r : Nat)
    (hr : e.into_global_index v.num_nodes v.num_variables v.variables_start = some r) :
    v.result_add e value = { v with b := v.b.modify r 0 (· + value) } := by
  unfold ABMatrixView.result_add
  rw [hr]

theorem ABMatrixView.result_add_noop (v : ABMatrixView) (e : ViewEquationIndex) (value : ℚ)
    (he : e.into_global_index v.num_nodes v.num_variables v.variables_start = none) :
    v.result_add e value = v := by
  unfold ABMatrixView.result_add
  rw [he]

/-- C2: for an assembly view over an `N`-node system whose element owns
`m` auxiliary slots starting at absolute offset `variables_start`,
`coefficient_add` adds its delta to `A` at the cell found by mapping a
nodal coordinate `k` (`1 ≤ k ≤ N`) to `k - 1` and a specific coordinate
`j < m` to `variables_start + j`, leaving every other cell and all of `b`
unchanged; and any reference to node 0, to a node above `N`, or to a
specific index at or beyond `m` translates to no global index, upon which
`coefficient_add` and `result_add` are complete silent no-ops. -/
theorem C2_view_routing_and_silent_noop (v : ABMatrixView) :
    (∀ k, 1 ≤ k → k ≤ v.num_nodes →
      (ViewEquationIndex.NodalEquation k).into_global_index v.num_nodes v.num_variables
          v.variables_start = some (k - 1) ∧
      (ViewVariableIndex.NodeVoltage k).into_global_index v.num_nodes v.num_variables
          v.variables_start = some (k - 1)) ∧
    (∀ j, j < v.num_variables →
      (ViewEquationIndex.SpecificEquation j).into_global_index v.num_nodes v.num_variables
          v.variables_start = some (v.variables_start + j) ∧
      (ViewVariableIndex.SpecificVariable j).into_global_index v.num_nodes v.num_variables
          v.variables_start = some (v.variables_start + j)) ∧
    (∀ e w (value : ℚ) r c,
      e.into_global_index v.num_nodes v.num_variables v.variables_start = some r →
      w.into_global_index v.num_nodes v.num_variables v.variables_start = some c →
      r < v.a.rows → c < v.a.cols →
      (v.coefficient_add e w value).a.entry r c = v.a.entry r c + value ∧
      (∀ i j, ¬(i = r ∧ j = c) →
        (v.coefficient_add e w value).a.entry i j = v.a.entry i j) ∧
      (v.coefficient_add e w value).b = v.b) ∧
    (∀ e w (value : ℚ),
      e.into_global_index v.num_nodes v.num_variables v.variables_start = none ∨
      w.into_global_index v.num_nodes v.num_variables v.variables_start = none →
      v.coefficient_add e w value = v) ∧
    (∀ e (value : ℚ),
      e.into_global_index v.num_nodes v.num_variables v.variables_start = none →
      v.result_add e value = v) ∧
    (∀ k, (ViewEquationIndex.NodalEquation k).into_global_index v.num_nodes v.num_variables
        v.variables_start = none ↔ (k = 0 ∨ v.num_nodes < k)) ∧
    (∀ j, (ViewEquationIndex.SpecificEquation j).into_global_index v.num_nodes
        v.num_variables v.variables_start = none ↔ v.num_variables ≤ j) ∧
    (∀ k, (ViewVariableIndex.NodeVoltage k).into_global_index v.num_nodes v.num_variables
        v.variables_start = none ↔ (k = 0 ∨ v.num_nodes < k)) ∧
    (∀ j, (ViewVariableIndex.SpecificVariable j).into_global_index v.num_nodes
        v.num_variables v.variables_start = none ↔ v.num_variables ≤ j) := by
  refine ⟨?_, ?_, ?_, ?_, ?_, ?_, ?_, ?_, ?_⟩
  · intro k h1 h2
    exact ⟨ViewEquationIndex.into_global_eq_nodal _ _ _ _ h1 h2,
           ViewVariableIndex.into_global_var_nodal _ _ _ _ h1 h2⟩
  · intro j hj
    exact ⟨ViewEquationIndex.into_global_eq_specific _ _ _ _ hj,
           ViewVariableIndex.into_global_var_specific _ _ _ _ hj⟩
  · intro e w value r c hr hc hrow hcol
    rw [v.coefficient_add_some e w value r c hr hc]
    refine ⟨?_, ?_, rfl⟩
    · exact v.a.modify_entry_self r c _ hrow hcol
    · intro i j hij
      exact v.a.modify_entry_ne r c i j _ hij
  · intro e w value h
    rcases h with he | hw
    · exact v.coefficient_add_noop_eq e w value he
    · exact v.coefficient_add_noop_var e w value hw
  · intro e value he
    exact v.result_add_noop e value he
  · intro k
    simp only [ViewEquationIndex.into_global_index]
    rcases Nat.eq_zero_or_pos k with h0 | h0
    · subst h0; simp
    · rw [if_neg (by omega : ¬k = 0)]
      by_cases hN : k > v.num_nodes
      · rw [if_pos hN]; simp; omega
      · rw [if_neg hN]; simp; omega
  · intro j
    simp only [ViewEquationIndex.into_global_index]
    by_cases hj : j ≥ v.num_variables
    · rw [if_pos hj]; simp; omega
    · rw [if_neg hj]; simp; omega
  · intro k
    simp only [ViewVariableIndex.into_global_index]
    rcases Nat.eq_zero_or_pos k with h0 | h0
    · subst h0; simp
    · rw [if_neg (by omega : ¬k = 0)]
      by_cases hN : k > v.num_nodes
      · rw [if_pos hN]; simp; omega
      · rw [if_neg hN]; simp; omega
  · intro j
    simp only [ViewVariableIndex.into_global_index]
    by_cases hj : j ≥ v.num_variables
    · rw [if_pos hj]; simp; omega
    · rw [if_neg hj]; simp; omega

/-- Witness for C2: a concrete 2-node view with one auxiliary slot at
offset 2 over 3×3 matrices — `coefficient_add` routed to cell (0, 2)
adds the delta there, and an equation reference to ground node 0 is a
complete no-op. -/
theorem C2_view_routing_and_silent_noop_witness :
    ((⟨DMat.zeros 3 3, DMat.zeros 3 1, 2, 1, 2⟩ : ABMatrixView).coefficient_add
        (ViewEquationIndex.NodalEquation 1) (ViewVariableIndex.SpecificVariable 0)
        5).a.entry 0 2 =
      (⟨DMat.zeros 3 3, DMat.zeros 3 1, 2, 1, 2⟩ : ABMatrixView).a.entry 0 2 + 5 ∧
    (⟨DMat.zeros 3 3, DMat.zeros 3 1, 2, 1, 2⟩ : ABMatrixView).coefficient_add
        (ViewEquationIndex.NodalEquation 0) (ViewVariableIndex.NodeVoltage 1) 7 =
      (⟨DMat.zeros 3 3, DMat.zeros 3 1, 2, 1, 2⟩ : ABMatrixView) := by
  have h := C2_view_routing_and_silent_noop ⟨DMat.zeros 3 3, DMat.zeros 3 1, 2, 1, 2⟩
  refine ⟨?_, ?_⟩
  · exact (h.2.2.1 (ViewEquationIndex.NodalEquation 1) (ViewVariableIndex.SpecificVariable 0)
      5 0 2 (by decide) (by decide) (by decide) (by decide)).1
  · exact h.2.2.2.1 (ViewEquationIndex.NodalEquation 0) (ViewVariableIndex.NodeVoltage 1) 7
      (Or.inl (by decide))

theorem EquationIndex.into_row_nodal (N M k : Nat) (h1 : 1 ≤ k) (h2 : k ≤ N) :
    (EquationIndex.NodalEquation k).into_row N M = some (k - 1) := by
  simp only [EquationIndex.into_row]
  rw [if_neg (by omega : ¬k = 0), if_neg (by omega : ¬k > N)]

theorem EquationIndex.into_row_ground (N M : Nat) :
    (EquationIndex.NodalEquation 0).into_row N M = none := rfl

theorem EquationIndex.into_row_nodal_high (N M k : Nat) (h : N < k) :
    (EquationIndex.NodalEquation k).into_row N M = none := by
  simp only [EquationIndex.into_row]
  rw [if_neg (by omega : ¬k = 0), if_pos (by omega : k > N)]

theorem EquationIndex.into_row_source (N M j : Nat) (h : j < M) :
    (EquationIndex.VoltageSourceEquation j).into_row N M = some (N + j) := by
  simp only [EquationIndex.into_row]
  rw [if_neg (by omega : ¬j ≥ M)]

theorem EquationIndex.into_row_source_high (N M j : Nat) (h : M ≤ j) :
    (EquationIndex.VoltageSourceEquation j).into_row N M = none := by
  simp only [EquationIndex.into_row]
  rw [if_pos (by omega : j ≥ M)]

theorem VariableIndex.into_col_nodal (N M k : Nat) (h1 : 1 ≤ k) (h2 : k ≤ N) :
    (VariableIndex.NodalVoltage k).into_col N M = some (k - 1) := by
  simp only [VariableIndex.into_col]
  rw [if_neg (by omega : ¬k = 0), if_neg (by omega : ¬k > N)]

theorem VariableIndex.into_col_ground (N M : Nat) :
    (VariableIndex.NodalVoltage 0).into_col N M = none := rfl

theorem VariableIndex.into_col_nodal_high (N M k : Nat) (h : N < k) :
    (VariableIndex.NodalVoltage k).into_col N M = none := by
  simp only [VariableIndex.into_col]
  rw [if_neg (by omega : ¬k = 0), if_pos (by omega : k > N)]

theorem VariableIndex.into_col_source (N M j : Nat) (h : j < M) :
    (VariableIndex.VoltageSourceCurrent j).into_col N M = some (N + j) := by
  simp only [VariableIndex.into_col]
  rw [if_neg (by omega : ¬j ≥ M)]

theorem VariableIndex.into_col_source_high (N M j : Nat) (h : M ≤ j) :
    (VariableIndex.VoltageSourceCurrent j).into_col N M = none := by
  simp only [VariableIndex.into_col]
  rw [if_pos (by omega : j ≥ M)]

/-- C6: over an `N`-node, `m`-auxiliary solution vector, the solution
views answer `get_variable(NodeVoltage 0)` with exactly `Some 0`, answer
`NodeVoltage k` for `1 ≤ k ≤ N` with the stored component `x[k-1]`, and
answer any other reference — a node above `N` or a specific/auxiliary
index at or beyond `m` — with `None`; the scoped `XMatrixView` and the
global `XMatrix` reader behave identically. -/
theorem C6_solution_view_reads (s : XMatrixView) (t : XMatrix)
    (hsr : s.x.rows = s.num_nodes + s.num_variables) (hsc : s.x.cols = 1)
    (htr : t.x.rows = t.num_nodes + t.num_voltage_sources) (htc : t.x.cols = 1) :
    (s.get_variable (ViewVariableIndex.NodeVoltage 0) = some 0 ∧
     (∀ k, 1 ≤ k → k ≤ s.num_nodes →
       s.get_variable (ViewVariableIndex.NodeVoltage k) = some (s.x.entry (k - 1) 0)) ∧
     (∀ k, s.num_nodes < k → s.get_variable (ViewVariableIndex.NodeVoltage k) = none) ∧
     (∀ j, s.num_variables ≤ j →
       s.get_variable (ViewVariableIndex.SpecificVariable j) = none)) ∧
    (t.get_variable (VariableIndex.NodalVoltage 0) = some 0 ∧
     (∀ k, 1 ≤ k → k ≤ t.num_nodes →
       t.get_variable (VariableIndex.NodalVoltage k) = some (t.x.entry (k - 1) 0)) ∧
     (∀ k, t.num_nodes < k → t.get_variable (VariableIndex.NodalVoltage k) = none) ∧
     (∀ j, t.num_voltage_sources ≤ j →
       t.get_variable (VariableIndex.VoltageSourceCurrent j) = none)) := by
  constructor
  · refine ⟨rfl, ?_, ?_, ?_⟩
    · intro k h1 h2
      cases k with
      | zero => omega
      | succ k' =>
        simp only [XMatrixView.get_variable,
          ViewVariableIndex.into_global_var_nodal s.num_nodes s.num_variables
            s.variables_start (k' + 1) h1 h2, Option.bind_some]
        exact s.x.get_in_bounds (k' + 1 - 1) 0 (by omega) (by omega)
    · intro k hk
      cases k with
      | zero => omega
      | succ k' =>
        simp only [XMatrixView.get_variable,
          ViewVariableIndex.into_global_var_high s.num_nodes s.num_variables
            s.variables_start (k' + 1) hk]
        rfl
    · intro j hj
      simp only [XMatrixView.get_variable,
        ViewVariableIndex.into_global_var_specific_high s.num_nodes s.num_variables
          s.variables_start j hj]
      rfl
  · refine ⟨rfl, ?_, ?_, ?_⟩
    · intro k h1 h2
      cases k with
      | zero => omega
      | succ k' =>
        simp only [XMatrix.get_variable,
          VariableIndex.into_col_nodal t.num_nodes t.num_voltage_sources (k' + 1) h1 h2,
          Option.bind_some]
        exact t.x.get_in_bounds (k' + 1 - 1) 0 (by omega) (by omega)
    · intro k hk
      cases k with
      | zero => omega
      | succ k' =>
        simp only [XMatrix.get_variable,
          VariableIndex.into_col_nodal_high t.num_nodes t.num_voltage_sources (k' + 1) hk]
        rfl
    · intro j hj
      simp only [XMatrix.get_variable,
        VariableIndex.into_col_source_high t.num_nodes t.num_voltage_sources j hj]
      rfl

/-- Witness for C6: a concrete 2-node, 1-auxiliary solution vector
`(10, 20, 30)` — ground reads exactly 0, node 2 reads `x[1] = 20`, node 3
and auxiliary index 1 read `None`. -/
theorem C6_solution_view_reads_witness :
    (XMatrixView.mk ⟨3, 1, fun i _ => if i = 0 then 10 else if i = 1 then 20 else 30⟩
        2 1 2).get_variable (ViewVariableIndex.NodeVoltage 0) = some 0 ∧
    (XMatrixView.mk ⟨3, 1, fun i _ => if i = 0 then 10 else if i = 1 then 20 else 30⟩
        2 1 2).get_variable (ViewVariableIndex.NodeVoltage 2) = some 20 ∧
    (XMatrixView.mk ⟨3, 1, fun i _ => if i = 0 then 10 else if i = 1 then 20 else 30⟩
        2 1 2).get_variable (ViewVariableIndex.NodeVoltage 3) = none ∧
    (XMatrix.mk ⟨3, 1, fun i _ => if i = 0 then 10 else if i = 1 then 20 else 30⟩
        2 1).get_variable (VariableIndex.VoltageSourceCurrent 1) = none := by
  have h := C6_solution_view_reads
    (XMatrixView.mk ⟨3, 1, fun i _ => if i = 0 then 10 else if i = 1 then 20 else 30⟩ 2 1 2)
    (XMatrix.mk ⟨3, 1, fun i _ => if i = 0 then 10 else if i = 1 then 20 else 30⟩ 2 1)
    rfl rfl rfl rfl
  refine ⟨h.1.1, ?_, h.1.2.2.1 3 (by decide), h.2.2.2.2 1 (by decide)⟩
  have h2 := h.1.2.1 2 (by decide) (by decide)
  rw [h2]
  rfl

/-- C9: for every diode and every voltage `v`, `get_current_with_voltage`
returns exactly `Is * (exp (v / (η·Vt)) - 1)` and `get_di_dv` returns
exactly `(Is / (η·Vt)) * exp (v / (η·Vt))`; `get_current` evaluates the
same law at the stored voltage, so the diode element law
`I = Is * (exp (v / (η·Vt)) - 1)` holds exactly at the stored operating
point; moreover the reported `di/dv` really is the derivative of the
current law at `v`. -/
theorem C9_diode_exponential_law (d : Diode) (v : ℝ) :
    d.get_current_with_voltage v =
      d.get_reverse_saturation_current *
        (Real.exp (v / (d.get_ideality_factor * d.get_thermal_voltage)) - 1) ∧
    d.get_di_dv v =
      (d.get_reverse_saturation_current / (d.get_ideality_factor * d.get_thermal_voltage)) *
        Real.exp (v / (d.get_ideality_factor * d.get_thermal_voltage)) ∧
    d.get_current =
      d.get_reverse_saturation_current *
        (Real.exp (d.get_voltage / (d.get_ideality_factor * d.get_thermal_voltage)) - 1) ∧
    HasDerivAt (fun w => d.get_current_with_voltage w) (d.get_di_dv v) v := by
  refine ⟨rfl, rfl, rfl, ?_⟩
  have hc : HasDerivAt (fun w : ℝ => w / (d.ideality_factor * d.thermal_voltage))
      (1 / (d.ideality_factor * d.thermal_voltage)) v := by
    simpa using (hasDerivAt_id v).div_const (d.ideality_factor * d.thermal_voltage)
  have h2 := ((hc.exp).sub_const 1).const_mul d.reverse_saturation_current
  have hval : d.get_di_dv v =
      d.reverse_saturation_current *
        (Real.exp (v / (d.ideality_factor * d.thermal_voltage)) *
          (1 / (d.ideality_factor * d.thermal_voltage))) := by
    unfold Diode.get_di_dv
    ring
  rw [hval]
  exact h2

theorem Capacitor.capacitor_stamp_eq (cap : Capacitor) (v : ABMatrixView) (op : XMatrixView) (dt : ℚ)
    (hp1 : 1 ≤ cap.get_positive_node) (hpN : cap.get_positive_node ≤ v.num_nodes)
    (hn1 : 1 ≤ cap.get_negative_node) (hnN : cap.get_negative_node ≤ v.num_nodes) :
    cap.stamp v op dt =
      { v with
        a := ((((v.a.modify (cap.get_positive_node - 1) (cap.get_positive_node - 1)
                  (· + cap.get_capacitance / dt)).modify
                (cap.get_positive_node - 1) (cap.get_negative_node - 1)
                  (· + -cap.get_capacitance / dt)).modify
              (cap.get_negative_node - 1) (cap.get_positive_node - 1)
                (· + -cap.get_capacitance / dt)).modify
            (cap.get_negative_node - 1) (cap.get_negative_node - 1)
              (· + cap.get_capacitance / dt)),
        b := ((v.b.modify (cap.get_positive_node - 1) 0
                (· + cap.get_capacitance * cap.get_voltage / dt)).modify
              (cap.get_negative_node - 1) 0
                (· + -cap.get_capacitance * cap.get_voltage / dt)) } := by
  have hep := ViewEquationIndex.into_global_eq_nodal v.num_nodes v.num_variables
    v.variables_start cap.get_positive_node hp1 hpN
  have hen := ViewEquationIndex.into_global_eq_nodal v.num_nodes v.num_variables
    v.variables_start cap.get_negative_node hn1 hnN
  have hvp := ViewVariableIndex.into_global_var_nodal v.num_nodes v.num_variables
    v.variables_start cap.get_positive_node hp1 hpN
  have hvn := ViewVariableIndex.into_global_var_nodal v.num_nodes v.num_variables
    v.variables_start cap.get_negative_node hn1 hnN
  simp only [Capacitor.stamp, ABMatrixView.coefficient_add, ABMatrixView.result_add,
    hep, hen, hvp, hvn]

/-- C3: a capacitor with nodes `p ≠ n` (both non-ground, in range) and
capacitance `C` stamps `c = C/dt` onto `(E_p, V_p)` and `(E_n, V_n)`,
subtracts it from `(E_p, V_n)` and `(E_n, V_p)`, adds `C·v_prev/dt` to
`b[E_p]` and subtracts it from `b[E_n]`, touching nothing else; its
update sets the current to `C·(v_new - v_prev)/dt` using the still-stored
previous voltage and only afterwards stores `v_new = x[p] - x[n]` as the
voltage. -/
theorem C3_capacitor_stamp_update (cap : Capacitor) (v : ABMatrixView) (op : XMatrixView)
    (dt : ℚ)
    (hp1 : 1 ≤ cap.get_positive_node) (hpN : cap.get_positive_node ≤ v.num_nodes)
    (hn1 : 1 ≤ cap.get_negative_node) (hnN : cap.get_negative_node ≤ v.num_nodes)
    (hpn : cap.get_positive_node ≠ cap.get_negative_node)
    (har : v.num_nodes ≤ v.a.rows) (hac : v.num_nodes ≤ v.a.cols)
    (hbr : v.num_nodes ≤ v.b.rows) (hbc : 0 < v.b.cols) :
    ((cap.stamp v op dt).a.entry (cap.get_positive_node - 1) (cap.get_positive_node - 1) =
      v.a.entry (cap.get_positive_node - 1) (cap.get_positive_node - 1) +
        cap.get_capacitance / dt) ∧
    ((cap.stamp v op dt).a.entry (cap.get_negative_node - 1) (cap.get_negative_node - 1) =
      v.a.entry (cap.get_negative_node - 1) (cap.get_negative_node - 1) +
        cap.get_capacitance / dt) ∧
    ((cap.stamp v op dt).a.entry (cap.get_positive_node - 1) (cap.get_negative_node - 1) =
      v.a.entry (cap.get_positive_node - 1) (cap.get_negative_node - 1) -
        cap.get_capacitance / dt) ∧
    ((cap.stamp v op dt).a.entry (cap.get_negative_node - 1) (cap.get_positive_node - 1) =
      v.a.entry (cap.get_negative_node - 1) (cap.get_positive_node - 1) -
        cap.get_capacitance / dt) ∧
    ((cap.stamp v op dt).b.entry (cap.get_positive_node - 1) 0 =
      v.b.entry (cap.get_positive_node - 1) 0 +
        cap.get_capacitance * cap.get_voltage / dt) ∧
    ((cap.stamp v op dt).b.entry (cap.get_negative_node - 1) 0 =
      v.b.entry (cap.get_negative_node - 1) 0 -
        cap.get_capacitance * cap.get_voltage / dt) ∧
    (∀ i j, ¬(i = cap.get_positive_node - 1 ∧ j = cap.get_positive_node - 1) →
      ¬(i = cap.get_positive_node - 1 ∧ j = cap.get_negative_node - 1) →
      ¬(i = cap.get_negative_node - 1 ∧ j = cap.get_positive_node - 1) →
      ¬(i = cap.get_negative_node - 1 ∧ j = cap.get_negative_node - 1) →
      (cap.stamp v op dt).a.entry i j = v.a.entry i j) ∧
    (∀ i j, ¬(i = cap.get_positive_node - 1 ∧ j = 0) →
      ¬(i = cap.get_negative_node - 1 ∧ j = 0) →
      (cap.stamp v op dt).b.entry i j = v.b.entry i j) ∧
    (∀ (xv : XMatrixView) (vp vn : ℚ),
      xv.get_variable (ViewVariableIndex.NodeVoltage cap.get_positive_node) = some vp →
      xv.get_variable (ViewVariableIndex.NodeVoltage cap.get_negative_node) = some vn →
      cap.update xv dt = some
        { cap with
          voltage := vp - vn,
          current := cap.capacitance * ((vp - vn) - cap.voltage) / dt }) := by
  rw [cap.capacitor_stamp_eq v op dt hp1 hpN hn1 hnN]
  refine ⟨?_, ?_, ?_, ?_, ?_, ?_, ?_, ?_, ?_⟩
  · rw [DMat.modify_entry_ne _ _ _ _ _ _ (by omega), DMat.modify_entry_ne _ _ _ _ _ _ (by omega),
      DMat.modify_entry_ne _ _ _ _ _ _ (by omega),
      DMat.modify_entry_self _ _ _ _ (by omega) (by omega)]
  · rw [DMat.modify_entry_self _ _ _ _ (by simp [DMat.modify_rows]; omega)
      (by simp [DMat.modify_cols]; omega)]
    rw [DMat.modify_entry_ne _ _ _ _ _ _ (by omega), DMat.modify_entry_ne _ _ _ _ _ _ (by omega),
      DMat.modify_entry_ne _ _ _ _ _ _ (by omega)]
  · rw [DMat.modify_entry_ne _ _ _ _ _ _ (by omega), DMat.modify_entry_ne _ _ _ _ _ _ (by omega),
      DMat.modify_entry_self _ _ _ _ (by simp [DMat.modify_rows]; omega)
        (by simp [DMat.modify_cols]; omega),
      DMat.modify_entry_ne _ _ _ _ _ _ (by omega)]
    ring
  · rw [DMat.modify_entry_ne _ _ _ _ _ _ (by omega),
      DMat.modify_entry_self _ _ _ _ (by simp [DMat.modify_rows]; omega)
        (by simp [DMat.modify_cols]; omega),
      DMat.modify_entry_ne _ _ _ _ _ _ (by omega), DMat.modify_entry_ne _ _ _ _ _ _ (by omega)]
    ring
  · rw [DMat.modify_entry_ne _ _ _ _ _ _ (by omega),
      DMat.modify_entry_self _ _ _ _ (by omega) (by omega)]
  · rw [DMat.modify_entry_self _ _ _ _ (by simp [DMat.modify_rows]; omega)
      (by simp [DMat.modify_cols]; omega),
      DMat.modify_entry_ne _ _ _ _ _ _ (by omega)]
    ring
  · intro i j h1 h2 h3 h4
    rw [DMat.modify_entry_ne _ _ _ _ _ _ (by omega), DMat.modify_entry_ne _ _ _ _ _ _ (by omega),
      DMat.modify_entry_ne _ _ _ _ _ _ (by omega), DMat.modify_entry_ne _ _ _ _ _ _ (by omega)]
  · intro i j h1 h2
    rw [DMat.modify_entry_ne _ _ _ _ _ _ (by omega), DMat.modify_entry_ne _ _ _ _ _ _ (by omega)]
  · intro xv vp vn hvp hvn
    simp only [Capacitor.update, hvp, hvn, Option.bind_some]
    rfl

/-- Witness for C3: a capacitor `(p=1, n=2, C=3, v_prev=5)` stamped at
`dt = 1` into a zeroed 2-node system adds `C/dt` at `(E_1, V_1)`, and its
update against the solution `(10, 20)` stores current
`C·((10-20) - 5)/dt` computed from the old voltage 5, then voltage
`10 - 20`. -/
theorem C3_capacitor_stamp_update_witness :
    ((Capacitor.mk 1 2 3 5 0).stamp ⟨DMat.zeros 2 2, DMat.zeros 2 1, 2, 0, 2⟩
        ⟨DMat.zeros 2 1, 2, 0, 2⟩ 1).a.entry 0 0 =
      (DMat.zeros 2 2).entry 0 0 + (Capacitor.mk 1 2 3 5 0).get_capacitance / 1 ∧
    (Capacitor.mk 1 2 3 5 0).update
        ⟨⟨2, 1, fun i _ => if i = 0 then 10 else 20⟩, 2, 0, 2⟩ 1 =
      some { Capacitor.mk 1 2 3 5 0 with
             voltage := 10 - 20
             current := (Capacitor.mk 1 2 3 5 0).capacitance * ((10 - 20) - 5) / 1 } := by
  have h := C3_capacitor_stamp_update (Capacitor.mk 1 2 3 5 0)
    ⟨DMat.zeros 2 2, DMat.zeros 2 1, 2, 0, 2⟩ ⟨DMat.zeros 2 1, 2, 0, 2⟩ 1
    (by decide) (by decide) (by decide) (by decide) (by decide)
    (by decide) (by decide) (by decide) (by decide)
  exact ⟨h.1, h.2.2.2.2.2.2.2.2 ⟨⟨2, 1, fun i _ => if i = 0 then 10 else 20⟩, 2, 0, 2⟩
    10 20 rfl rfl⟩

theorem Inductor.inductor_stamp_eq (ind : Inductor) (v : ABMatrixView) (op : XMatrixView) (dt : ℚ)
    (hp1 : 1 ≤ ind.get_positive_node) (hpN : ind.get_positive_node ≤ v.num_nodes)
    (hn1 : 1 ≤ ind.get_negative_node) (hnN : ind.get_negative_node ≤ v.num_nodes) :
    ind.stamp v op dt =
      { v with
        a := ((((v.a.modify (ind.get_positive_node - 1) (ind.get_positive_node - 1)
                  (· + dt / ind.get_inductance)).modify
                (ind.get_positive_node - 1) (ind.get_negative_node - 1)
                  (· + -dt / ind.get_inductance)).modify
              (ind.get_negative_node - 1) (ind.get_positive_node - 1)
                (· + -dt / ind.get_inductance)).modify
            (ind.get_negative_node - 1) (ind.get_negative_node - 1)
              (· + dt / ind.get_inductance)),
        b := ((v.b.modify (ind.get_positive_node - 1) 0
                (· + -ind.get_current)).modify
              (ind.get_negative_node - 1) 0 (· + ind.get_current)) } := by
  have hep := ViewEquationIndex.into_global_eq_nodal v.num_nodes v.num_variables
    v.variables_start ind.get_positive_node hp1 hpN
  have hen := ViewEquationIndex.into_global_eq_nodal v.num_nodes v.num_variables
    v.variables_start ind.get_negative_node hn1 hnN
  have hvp := ViewVariableIndex.into_global_var_nodal v.num_nodes v.num_variables
    v.variables_start ind.get_positive_node hp1 hpN
  have hvn := ViewVariableIndex.into_global_var_nodal v.num_nodes v.num_variables
    v.variables_start ind.get_negative_node hn1 hnN
  simp only [Inductor.stamp, ABMatrixView.coefficient_add, ABMatrixView.result_add,
    hep, hen, hvp, hvn]

/-- C4: an inductor with nodes `p ≠ n` (both non-ground, in range) and
inductance `L` stamps `l = dt/L` onto `(E_p, V_p)` and `(E_n, V_n)`,
subtracts it from the cross terms, subtracts the previous current from
`b[E_p]` and adds it to `b[E_n]`, touching nothing else; its update first
stores the voltage `v = x[p] - x[n]` and then advances the current to
`I_new = I_prev + dt·v/L`. -/
theorem C4_inductor_stamp_update (ind : Inductor) (v : ABMatrixView) (op : XMatrixView)
    (dt : ℚ)
    (hp1 : 1 ≤ ind.get_positive_node) (hpN : ind.get_positive_node ≤ v.num_nodes)
    (hn1 : 1 ≤ ind.get_negative_node) (hnN : ind.get_negative_node ≤ v.num_nodes)
    (hpn : ind.get_positive_node ≠ ind.get_negative_node)
    (har : v.num_nodes ≤ v.a.rows) (hac : v.num_nodes ≤ v.a.cols)
    (hbr : v.num_nodes ≤ v.b.rows) (hbc : 0 < v.b.cols) :
    ((ind.stamp v op dt).a.entry (ind.get_positive_node - 1) (ind.get_positive_node - 1) =
      v.a.entry (ind.get_positive_node - 1) (ind.get_positive_node - 1) +
        dt / ind.get_inductance) ∧
    ((ind.stamp v op dt).a.entry (ind.get_negative_node - 1) (ind.get_negative_node - 1) =
      v.a.entry (ind.get_negative_node - 1) (ind.get_negative_node - 1) +
        dt / ind.get_inductance) ∧
    ((ind.stamp v op dt).a.entry (ind.get_positive_node - 1) (ind.get_negative_node - 1) =
      v.a.entry (ind.get_positive_node - 1) (ind.get_negative_node - 1) -
        dt / ind.get_inductance) ∧
    ((ind.stamp v op dt).a.entry (ind.get_negative_node - 1) (ind.get_positive_node - 1) =
      v.a.entry (ind.get_negative_node - 1) (ind.get_positive_node - 1) -
        dt / ind.get_inductance) ∧
    ((ind.stamp v op dt).b.entry (ind.get_positive_node - 1) 0 =
      v.b.entry (ind.get_positive_node - 1) 0 - ind.get_current) ∧
    ((ind.stamp v op dt).b.entry (ind.get_negative_node - 1) 0 =
      v.b.entry (ind.get_negative_node - 1) 0 + ind.get_current) ∧
    (∀ i j, ¬(i = ind.get_positive_node - 1 ∧ j = ind.get_positive_node - 1) →
      ¬(i = ind.get_positive_node - 1 ∧ j = ind.get_negative_node - 1) →
      ¬(i = ind.get_negative_node - 1 ∧ j = ind.get_positive_node - 1) →
      ¬(i = ind.get_negative_node - 1 ∧ j = ind.get_negative_node - 1) →
      (ind.stamp v op dt).a.entry i j = v.a.entry i j) ∧
    (∀ i j, ¬(i = ind.get_positive_node - 1 ∧ j = 0) →
      ¬(i = ind.get_negative_node - 1 ∧ j = 0) →
      (ind.stamp v op dt).b.entry i j = v.b.entry i j) ∧
    (∀ (xv : XMatrixView) (vp vn : ℚ),
      xv.get_variable (ViewVariableIndex.NodeVoltage ind.get_positive_node) = some vp →
      xv.get_variable (ViewVariableIndex.NodeVoltage ind.get_negative_node) = some vn →
      ind.update xv dt = some
        { ind with
          voltage := vp - vn,
          current := ind.current + dt * (vp - vn) / ind.inductance }) := by
  rw [ind.inductor_stamp_eq v op dt hp1 hpN hn1 hnN]
  refine ⟨?_, ?_, ?_, ?_, ?_, ?_, ?_, ?_, ?_⟩
  · rw [DMat.modify_entry_ne _ _ _ _ _ _ (by omega), DMat.modify_entry_ne _ _ _ _ _ _ (by omega),
      DMat.modify_entry_ne _ _ _ _ _ _ (by omega),
      DMat.modify_entry_self _ _ _ _ (by omega) (by omega)]
  · rw [DMat.modify_entry_self _ _ _ _ (by simp [DMat.modify_rows]; omega)
      (by simp [DMat.modify_cols]; omega)]
    rw [DMat.modify_entry_ne _ _ _ _ _ _ (by omega), DMat.modify_entry_ne _ _ _ _ _ _ (by omega),
      DMat.modify_entry_ne _ _ _ _ _ _ (by omega)]
  · rw [DMat.modify_entry_ne _ _ _ _ _ _ (by omega), DMat.modify_entry_ne _ _ _ _ _ _ (by omega),
      DMat.modify_entry_self _ _ _ _ (by simp [DMat.modify_rows]; omega)
        (by simp [DMat.modify_cols]; omega),
      DMat.modify_entry_ne _ _ _ _ _ _ (by omega)]
    ring
  · rw [DMat.modify_entry_ne _ _ _ _ _ _ (by omega),
      DMat.modify_entry_self _ _ _ _ (by simp [DMat.modify_rows]; omega)
        (by simp [DMat.modify_cols]; omega),
      DMat.modify_entry_ne _ _ _ _ _ _ (by omega), DMat.modify_entry_ne _ _ _ _ _ _ (by omega)]
    ring
  · rw [DMat.modify_entry_ne _ _ _ _ _ _ (by omega),
      DMat.modify_entry_self _ _ _ _ (by omega) (by omega)]
    ring
  · rw [DMat.modify_entry_self _ _ _ _ (by simp [DMat.modify_rows]; omega)
      (by simp [DMat.modify_cols]; omega),
      DMat.modify_entry_ne _ _ _ _ _ _ (by omega)]
  · intro i j h1 h2 h3 h4
    rw [DMat.modify_entry_ne _ _ _ _ _ _ (by omega), DMat.modify_entry_ne _ _ _ _ _ _ (by omega),
      DMat.modify_entry_ne _ _ _ _ _ _ (by omega), DMat.modify_entry_ne _ _ _ _ _ _ (by omega)]
  · intro i j h1 h2
    rw [DMat.modify_entry_ne _ _ _ _ _ _ (by omega), DMat.modify_entry_ne _ _ _ _ _ _ (by omega)]
  · intro xv vp vn hvp hvn
    have hred : ind.update xv dt = some
        { ind with
          voltage := vp - vn
          current := (vp - vn) * dt / ind.inductance + ind.current } := by
      simp only [Inductor.update, hvp, hvn]
      rfl
    rw [hred, Option.some_inj]
    congr 1
    ring

/-- Witness for C4: an inductor `(p=1, n=2, L=4, I_prev=7)` stamped at
`dt = 2` into a zeroed 2-node system subtracts `I_prev` from `b[E_1]`,
and its update against the solution `(10, 20)` stores voltage `10 - 20`
and current `7 + 2·(10-20)/4`. -/
theorem C4_inductor_stamp_update_witness :
    ((Inductor.mk 1 2 4 7 0).stamp ⟨DMat.zeros 2 2, DMat.zeros 2 1, 2, 0, 2⟩
        ⟨DMat.zeros 2 1, 2, 0, 2⟩ 2).b.entry 0 0 =
      (DMat.zeros 2 1).entry 0 0 - (Inductor.mk 1 2 4 7 0).get_current ∧
    (Inductor.mk 1 2 4 7 0).update
        ⟨⟨2, 1, fun i _ => if i = 0 then 10 else 20⟩, 2, 0, 2⟩ 2 =
      some { Inductor.mk 1 2 4 7 0 with
             voltage := 10 - 20
             current := (Inductor.mk 1 2 4 7 0).current + 2 * (10 - 20) / 4 } := by
  have h := C4_inductor_stamp_update (Inductor.mk 1 2 4 7 0)
    ⟨DMat.zeros 2 2, DMat.zeros 2 1, 2, 0, 2⟩ ⟨DMat.zeros 2 1, 2, 0, 2⟩ 2
    (by decide) (by decide) (by decide) (by decide) (by decide)
    (by decide) (by decide) (by decide) (by decide)
  exact ⟨h.2.2.2.2.1, h.2.2.2.2.2.2.2.2
    ⟨⟨2, 1, fun i _ => if i = 0 then 10 else 20⟩, 2, 0, 2⟩ 10 20 rfl rfl⟩

theorem Component.num_variables_of_not_vs (c : Component) (h : c.isVoltageSource = false) :
    c.num_variables = 0 := by
  cases c <;> simp_all [Component.isVoltageSource, Component.num_variables,
    Resistor.num_variables, Capacitor.num_variables, Inductor.num_variables,
    CurrentSource.num_variables]

theorem Component.num_variables_of_vs (c : Component) (h : c.isVoltageSource = true) :
    c.num_variables = 1 := by
  cases c <;> simp_all [Component.isVoltageSource, Component.num_variables,
    VoltageSource.num_variables]

theorem auxOffsets_get (cs : List Component) (st i j : Nat) (vs : VoltageSource)
    (hc : cs[i]? = some (Component.VoltageSource vs))
    (hj : (cs.take i).countP Component.isVoltageSource = j) :
    (auxOffsets cs st)[i]? = some (st + j) := by
  induction cs generalizing st i j with
  | nil => simp at hc
  | cons c rest ih =>
    cases i with
    | zero =>
      simp only [List.getElem?_cons_zero, Option.some_inj] at hc
      simp only [List.take_zero, List.countP_nil] at hj
      simp [auxOffsets, hc, hj.symm]
    | succ i' =>
      simp only [List.getElem?_cons_succ] at hc
      simp only [List.take_succ_cons, List.countP_cons] at hj
      cases hvs : c.isVoltageSource with
      | false =>
        rw [hvs] at hj
        simp at hj
        have h0 := c.num_variables_of_not_vs hvs
        simp only [auxOffsets, List.getElem?_cons_succ, h0, Nat.add_zero]
        exact ih st i' j hc (by omega)
      | true =>
        rw [hvs] at hj
        simp at hj
        have h1 := c.num_variables_of_vs hvs
        simp only [auxOffsets, List.getElem?_cons_succ, h1]
        rw [ih (st + 1) i' ((rest.take i').countP Component.isVoltageSource) hc rfl]
        congr 1
        omega

theorem VoltageSource.voltage_source_stamp_eq (vs : VoltageSource) (v : ABMatrixView) (op : XMatrixView)
    (dt : ℚ)
    (hp1 : 1 ≤ vs.get_positive_node) (hpN : vs.get_positive_node ≤ v.num_nodes)
    (hn1 : 1 ≤ vs.get_negative_node) (hnN : vs.get_negative_node ≤ v.num_nodes)
    (hm : 0 < v.num_variables) :
    vs.stamp v op dt =
      { v with
        a := ((((v.a.modify (vs.get_positive_node - 1) v.variables_start
                  (· + -1)).modify
                (vs.get_negative_node - 1) v.variables_start (· + 1)).modify
              v.variables_start (vs.get_positive_node - 1) (· + 1)).modify
            v.variables_start (vs.get_negative_node - 1) (· + -1)),
        b := v.b.modify v.variables_start 0 (· + vs.get_voltage) } := by
  have hep := ViewEquationIndex.into_global_eq_nodal v.num_nodes v.num_variables
    v.variables_start vs.get_positive_node hp1 hpN
  have hen := ViewEquationIndex.into_global_eq_nodal v.num_nodes v.num_variables
    v.variables_start vs.get_negative_node hn1 hnN
  have hse := ViewEquationIndex.into_global_eq_specific v.num_nodes v.num_variables
    v.variables_start 0 hm
  have hvp := ViewVariableIndex.into_global_var_nodal v.num_nodes v.num_variables
    v.variables_start vs.get_positive_node hp1 hpN
  have hvn := ViewVariableIndex.into_global_var_nodal v.num_nodes v.num_variables
    v.variables_start vs.get_negative_node hn1 hnN
  have hsv := ViewVariableIndex.into_global_var_specific v.num_nodes v.num_variables
    v.variables_start 0 hm
  simp only [VoltageSource.stamp, ABMatrixView.coefficient_add, ABMatrixView.result_add,
    hep, hen, hse, hvp, hvn, hsv, Nat.add_zero]

/-- C5: a voltage source with nodes `p ≠ n` (both non-ground, in range)
and value `V`, stamped through a view whose auxiliary slot sits at
absolute offset `s`, subtracts 1 from `(E_p, aux)`, adds 1 to
`(E_n, aux)`, adds 1 to `(aux, V_p)`, subtracts 1 from `(aux, V_n)` and
adds `V` to `b[aux]`, touching nothing else; its update stores the solved
auxiliary current; the global index translation sends
`VoltageSourceEquation j` / `VoltageSourceCurrent j` (for `j < M`) to
absolute row/column `N + j`; and the driver's offset walk hands the
`j`-th voltage source in insertion order (`j` voltage sources precede it)
the offset `N + j`, because every other element kind declares zero
auxiliaries. -/
theorem C5_voltage_source_stamp_and_aux_rows (vs : VoltageSource) (v : ABMatrixView)
    (op : XMatrixView) (dt : ℚ)
    (hp1 : 1 ≤ vs.get_positive_node) (hpN : vs.get_positive_node ≤ v.num_nodes)
    (hn1 : 1 ≤ vs.get_negative_node) (hnN : vs.get_negative_node ≤ v.num_nodes)
    (hpn : vs.get_positive_node ≠ vs.get_negative_node)
    (hm : 0 < v.num_variables) (hsp : v.num_nodes ≤ v.variables_start)
    (har : v.variables_start < v.a.rows) (hac : v.variables_start < v.a.cols)
    (hbr : v.variables_start < v.b.rows) (hbc : 0 < v.b.cols) :
    ((vs.stamp v op dt).a.entry (vs.get_positive_node - 1) v.variables_start =
      v.a.entry (vs.get_positive_node - 1) v.variables_start - 1) ∧
    ((vs.stamp v op dt).a.entry (vs.get_negative_node - 1) v.variables_start =
      v.a.entry (vs.get_negative_node - 1) v.variables_start + 1) ∧
    ((vs.stamp v op dt).a.entry v.variables_start (vs.get_positive_node - 1) =
      v.a.entry v.variables_start (vs.get_positive_node - 1) + 1) ∧
    ((vs.stamp v op dt).a.entry v.variables_start (vs.get_negative_node - 1) =
      v.a.entry v.variables_start (vs.get_negative_node - 1) - 1) ∧
    ((vs.stamp v op dt).b.entry v.variables_start 0 =
      v.b.entry v.variables_start 0 + vs.get_voltage) ∧
    (∀ i j, ¬(i = vs.get_positive_node - 1 ∧ j = v.variables_start) →
      ¬(i = vs.get_negative_node - 1 ∧ j = v.variables_start) →
      ¬(i = v.variables_start ∧ j = vs.get_positive_node - 1) →
      ¬(i = v.variables_start ∧ j = vs.get_negative_node - 1) →
      (vs.stamp v op dt).a.entry i j = v.a.entry i j) ∧
    (∀ i j, ¬(i = v.variables_start ∧ j = 0) →
      (vs.stamp v op dt).b.entry i j = v.b.entry i j) ∧
    (∀ (xv : XMatrixView) (i : ℚ),
      xv.get_variable (ViewVariableIndex.SpecificVariable 0) = some i →
      vs.update xv dt = some { vs with current := i }) ∧
    (∀ N M j, j < M →
      (EquationIndex.VoltageSourceEquation j).into_row N M = some (N + j) ∧
      (VariableIndex.VoltageSourceCurrent j).into_col N M = some (N + j)) ∧
    (∀ (cs : List Component) (N i j : Nat) (ws : VoltageSource),
      cs[i]? = some (Component.VoltageSource ws) →
      (cs.take i).countP Component.isVoltageSource = j →
      (auxOffsets cs N)[i]? = some (N + j)) := by
  rw [vs.voltage_source_stamp_eq v op dt hp1 hpN hn1 hnN hm]
  refine ⟨?_, ?_, ?_, ?_, ?_, ?_, ?_, ?_, ?_, ?_⟩
  · rw [DMat.modify_entry_ne _ _ _ _ _ _ (by omega), DMat.modify_entry_ne _ _ _ _ _ _ (by omega),
      DMat.modify_entry_ne _ _ _ _ _ _ (by omega),
      DMat.modify_entry_self _ _ _ _ (by omega) (by omega)]
    ring
  · rw [DMat.modify_entry_ne _ _ _ _ _ _ (by omega), DMat.modify_entry_ne _ _ _ _ _ _ (by omega),
      DMat.modify_entry_self _ _ _ _ (by simp [DMat.modify_rows]; omega)
        (by simp [DMat.modify_cols]; omega),
      DMat.modify_entry_ne _ _ _ _ _ _ (by omega)]
  · rw [DMat.modify_entry_ne _ _ _ _ _ _ (by omega),
      DMat.modify_entry_self _ _ _ _ (by simp [DMat.modify_rows]; omega)
        (by simp [DMat.modify_cols]; omega),
      DMat.modify_entry_ne _ _ _ _ _ _ (by omega), DMat.modify_entry_ne _ _ _ _ _ _ (by omega)]
  · rw [DMat.modify_entry_self _ _ _ _ (by simp [DMat.modify_rows]; omega)
      (by simp [DMat.modify_cols]; omega),
      DMat.modify_entry_ne _ _ _ _ _ _ (by omega), DMat.modify_entry_ne _ _ _ _ _ _ (by omega),
      DMat.modify_entry_ne _ _ _ _ _ _ (by omega)]
    ring
  · rw [DMat.modify_entry_self _ _ _ _ (by omega) (by omega)]
  · intro i j h1 h2 h3 h4
    rw [DMat.modify_entry_ne _ _ _ _ _ _ (by omega), DMat.modify_entry_ne _ _ _ _ _ _ (by omega),
      DMat.modify_entry_ne _ _ _ _ _ _ (by omega), DMat.modify_entry_ne _ _ _ _ _ _ (by omega)]
  · intro i j h1
    rw [DMat.modify_entry_ne _ _ _ _ _ _ (by omega)]
  · intro xv i hi
    simp only [VoltageSource.update, hi, Option.bind_some]
    rfl
  · intro N M j hj
    exact ⟨EquationIndex.into_row_source N M j hj, VariableIndex.into_col_source N M j hj⟩
  · intro cs N i j ws hc hj
    exact auxOffsets_get cs N i j ws hc hj

/-- Witness for C5: a voltage source `(p=1, n=2, V=9)` stamped through a
view with auxiliary offset 2 writes `V` into `b[2]`, and in the walk over
`[resistor, source, source]` starting at node count 2 the second voltage
source (position 2, one source before it) receives offset `2 + 1`. -/
theorem C5_voltage_source_stamp_and_aux_rows_witness :
    ((VoltageSource.mk 1 2 9 0).stamp ⟨DMat.zeros 3 3, DMat.zeros 3 1, 2, 1, 2⟩
        ⟨DMat.zeros 3 1, 2, 1, 2⟩ 1).b.entry 2 0 =
      (DMat.zeros 3 1).entry 2 0 + (VoltageSource.mk 1 2 9 0).get_voltage ∧
    (auxOffsets [Component.Resistor (Resistor.mk 1 2 5 0),
        Component.VoltageSource (VoltageSource.mk 1 0 4 0),
        Component.VoltageSource (VoltageSource.mk 2 0 4 0)] 2)[2]? = some (2 + 1) := by
  have h := C5_voltage_source_stamp_and_aux_rows (VoltageSource.mk 1 2 9 0)
    ⟨DMat.zeros 3 3, DMat.zeros 3 1, 2, 1, 2⟩ ⟨DMat.zeros 3 1, 2, 1, 2⟩ 1
    (by decide) (by decide) (by decide) (by decide) (by decide)
    (by decide) (by decide) (by decide) (by decide) (by decide) (by decide)
  refine ⟨h.2.2.2.2.1, ?_⟩
  exact h.2.2.2.2.2.2.2.2.2 [Component.Resistor (Resistor.mk 1 2 5 0),
    Component.VoltageSource (VoltageSource.mk 1 0 4 0),
    Component.VoltageSource (VoltageSource.mk 2 0 4 0)] 2 2 1
    (VoltageSource.mk 2 0 4 0) (by decide) (by decide)

/-! Infrastructure for the solver-driver claims: dimension preservation
through stamping, node bounds, and success/frame facts about the update
passes. -/

theorem ABMatrix.coefficient_add_a_rows (p : ABMatrix) (e : EquationIndex)
    (w : VariableIndex) (value : ℚ) : (p.coefficient_add e w value).a.rows = p.a.rows := by
  unfold ABMatrix.coefficient_add
  split
  · exact DMat.modify_rows _ _ _ _
  · rfl

theorem ABMatrix.coefficient_add_a_cols (p : ABMatrix) (e : EquationIndex)
    (w : VariableIndex) (value : ℚ) : (p.coefficient_add e w value).a.cols = p.a.cols := by
  unfold ABMatrix.coefficient_add
  split
  · exact DMat.modify_cols _ _ _ _
  · rfl

theorem ABMatrix.coefficient_add_b (p : ABMatrix) (e : EquationIndex) (w : VariableIndex)
    (value : ℚ) : (p.coefficient_add e w value).b = p.b := by
  unfold ABMatrix.coefficient_add
  split <;> rfl

theorem ABMatrix.coefficient_add_num_nodes (p : ABMatrix) (e : EquationIndex)
    (w : VariableIndex) (value : ℚ) :
    (p.coefficient_add e w value).num_nodes = p.num_nodes := by
  unfold ABMatrix.coefficient_add
  split <;> rfl

theorem ABMatrix.coefficient_add_num_vs (p : ABMatrix) (e : EquationIndex)
    (w : VariableIndex) (value : ℚ) :
    (p.coefficient_add e w value).num_voltage_sources = p.num_voltage_sources := by
  unfold ABMatrix.coefficient_add
  split <;> rfl

theorem ABMatrix.result_add_a (p : ABMatrix) (e : EquationIndex) (value : ℚ) :
    (p.result_add e value).a = p.a := by
  unfold ABMatrix.result_add
  split <;> rfl

theorem ABMatrix.result_add_b_rows (p : ABMatrix) (e : EquationIndex) (value : ℚ) :
    (p.result_add e value).b.rows = p.b.rows := by
  unfold ABMatrix.result_add
  split
  · exact DMat.modify_rows _ _ _ _
  · rfl

theorem ABMatrix.result_add_b_cols (p : ABMatrix) (e : EquationIndex) (value : ℚ) :
    (p.result_add e value).b.cols = p.b.cols := by
  unfold ABMatrix.result_add
  split
  · exact DMat.modify_cols _ _ _ _
  · rfl

theorem ABMatrix.result_add_num_nodes (p : ABMatrix) (e : EquationIndex) (value : ℚ) :
    (p.result_add e value).num_nodes = p.num_nodes := by
  unfold ABMatrix.result_add
  split <;> rfl

theorem ABMatrix.result_add_num_vs (p : ABMatrix) (e : EquationIndex) (value : ℚ) :
    (p.result_add e value).num_voltage_sources = p.num_voltage_sources := by
  unfold ABMatrix.result_add
  split <;> rfl

theorem BESolver.stamp_resistor_dims (r : Resistor) (i : Nat) (p : ABMatrix) (dt : ℚ) :
    (BESolver.stamp_resistor r i p dt).a.rows = p.a.rows ∧
    (BESolver.stamp_resistor r i p dt).a.cols = p.a.cols ∧
    (BESolver.stamp_resistor r i p dt).b.rows = p.b.rows ∧
    (BESolver.stamp_resistor r i p dt).b.cols = p.b.cols ∧
    (BESolver.stamp_resistor r i p dt).num_nodes = p.num_nodes ∧
    (BESolver.stamp_resistor r i p dt).num_voltage_sources = p.num_voltage_sources := by
  simp only [BESolver.stamp_resistor, ABMatrix.coefficient_add_a_rows,
    ABMatrix.coefficient_add_a_cols, ABMatrix.coefficient_add_b,
    ABMatrix.coefficient_add_num_nodes, ABMatrix.coefficient_add_num_vs]
  exact ⟨trivial, trivial, trivial, trivial, trivial, trivial⟩

theorem BESolver.stamp_capacitor_dims (c : Capacitor) (i : Nat) (p : ABMatrix) (dt : ℚ) :
    (BESolver.stamp_capacitor c i p dt).a.rows = p.a.rows ∧
    (BESolver.stamp_capacitor c i p dt).a.cols = p.a.cols ∧
    (BESolver.stamp_capacitor c i p dt).b.rows = p.b.rows ∧
    (BESolver.stamp_capacitor c i p dt).b.cols = p.b.cols ∧
    (BESolver.stamp_capacitor c i p dt).num_nodes = p.num_nodes ∧
    (BESolver.stamp_capacitor c i p dt).num_voltage_sources = p.num_voltage_sources := by
  simp only [BESolver.stamp_capacitor, ABMatrix.coefficient_add_a_rows,
    ABMatrix.coefficient_add_a_cols, ABMatrix.coefficient_add_b,
    ABMatrix.coefficient_add_num_nodes, ABMatrix.coefficient_add_num_vs,
    ABMatrix.result_add_a, ABMatrix.result_add_b_rows, ABMatrix.result_add_b_cols,
    ABMatrix.result_add_num_nodes, ABMatrix.result_add_num_vs]
  exact ⟨trivial, trivial, trivial, trivial, trivial, trivial⟩

theorem BESolver.stamp_voltage_source_dims (s : VoltageSource) (i : Nat) (p : ABMatrix)
    (dt : ℚ) :
    (BESolver.stamp_voltage_source s i p dt).a.rows = p.a.rows ∧
    (BESolver.stamp_voltage_source s i p dt).a.cols = p.a.cols ∧
    (BESolver.stamp_voltage_source s i p dt).b.rows = p.b.rows ∧
    (BESolver.stamp_voltage_source s i p dt).b.cols = p.b.cols ∧
    (BESolver.stamp_voltage_source s i p dt).num_nodes = p.num_nodes ∧
    (BESolver.stamp_voltage_source s i p dt).num_voltage_sources =
      p.num_voltage_sources := by
  simp only [BESolver.stamp_voltage_source, ABMatrix.coefficient_add_a_rows,
    ABMatrix.coefficient_add_a_cols, ABMatrix.coefficient_add_b,
    ABMatrix.coefficient_add_num_nodes, ABMatrix.coefficient_add_num_vs,
    ABMatrix.result_add_a, ABMatrix.result_add_b_rows, ABMatrix.result_add_b_cols,
    ABMatrix.result_add_num_nodes, ABMatrix.result_add_num_vs]
  exact ⟨trivial, trivial, trivial, trivial, trivial, trivial⟩

theorem BESolver.stamp_current_source_dims (c : CurrentSource) (i : Nat) (p : ABMatrix)
    (dt : ℚ) :
    (BESolver.stamp_current_source c i p dt).a.rows = p.a.rows ∧
    (BESolver.stamp_current_source c i p dt).a.cols = p.a.cols ∧
    (BESolver.stamp_current_source c i p dt).b.rows = p.b.rows ∧
    (BESolver.stamp_current_source c i p dt).b.cols = p.b.cols ∧
    (BESolver.stamp_current_source c i p dt).num_nodes = p.num_nodes ∧
    (BESolver.stamp_current_source c i p dt).num_voltage_sources =
      p.num_voltage_sources := by
  simp only [BESolver.stamp_current_source, ABMatrix.result_add_a,
    ABMatrix.result_add_b_rows, ABMatrix.result_add_b_cols, ABMatrix.result_add_num_nodes,
    ABMatrix.result_add_num_vs]
  exact ⟨trivial, trivial, trivial, trivial, trivial, trivial⟩

theorem foldl_stamp_dims {α : Type} (f : ABMatrix → α → ABMatrix)
    (hf : ∀ p x, (f p x).a.rows = p.a.rows ∧ (f p x).a.cols = p.a.cols ∧
      (f p x).b.rows = p.b.rows ∧ (f p x).b.cols = p.b.cols ∧
      (f p x).num_nodes = p.num_nodes ∧
      (f p x).num_voltage_sources = p.num_voltage_sources)
    (l : List α) (p : ABMatrix) :
    (l.foldl f p).a.rows = p.a.rows ∧ (l.foldl f p).a.cols = p.a.cols ∧
    (l.foldl f p).b.rows = p.b.rows ∧ (l.foldl f p).b.cols = p.b.cols ∧
    (l.foldl f p).num_nodes = p.num_nodes ∧
    (l.foldl f p).num_voltage_sources = p.num_voltage_sources := by
  induction l generalizing p with
  | nil => exact ⟨rfl, rfl, rfl, rfl, rfl, rfl⟩
  | cons x xs ih =>
    have h1 := hf p x
    have h2 := ih (f p x)
    simp only [List.foldl_cons]
    omega

theorem DMat.tryInverse_dims (m w : DMat) (h : m.tryInverse = some w) :
    w.rows = m.rows ∧ w.cols = m.rows := by
  unfold DMat.tryInverse at h
  split at h
  · cases h
    exact ⟨rfl, rfl⟩
  · cases h

theorem le_foldr_max (l : List Nat) (x : Nat) (h : x ∈ l) : x ≤ l.foldr max 0 := by
  induction l with
  | nil => cases h
  | cons y ys ih =>
    rcases List.mem_cons.mp h with h1 | h1
    · subst h1
      exact Nat.le_max_left _ _
    · exact Nat.le_trans (ih h1) (Nat.le_max_right _ _)

theorem SolverNetlist.resistor_nodes_le (nl : SolverNetlist) (r : Resistor)
    (h : r ∈ nl.resistors) :
    r.get_positive_node ≤ nl.get_num_nodes ∧ r.get_negative_node ≤ nl.get_num_nodes := by
  have hm : r.max_node ≤ (nl.resistors.map Resistor.max_node).foldr max 0 :=
    le_foldr_max _ _ (List.mem_map_of_mem _ h)
  have hb : (nl.resistors.map Resistor.max_node).foldr max 0 ≤ nl.get_num_nodes := by
    unfold SolverNetlist.get_num_nodes
    exact Nat.le_trans (Nat.le_max_left _ _) (Nat.le_max_left _ _)
  unfold Resistor.max_node at hm
  exact ⟨Nat.le_trans (Nat.le_trans (Nat.le_max_left _ _) hm) hb,
         Nat.le_trans (Nat.le_trans (Nat.le_max_right _ _) hm) hb⟩

theorem SolverNetlist.capacitor_nodes_le (nl : SolverNetlist) (c : Capacitor)
    (h : c ∈ nl.capacitors) :
    c.get_positive_node ≤ nl.get_num_nodes ∧ c.get_negative_node ≤ nl.get_num_nodes := by
  have hm : c.max_node ≤ (nl.capacitors.map Capacitor.max_node).foldr max 0 :=
    le_foldr_max _ _ (List.mem_map_of_mem _ h)
  have hb : (nl.capacitors.map Capacitor.max_node).foldr max 0 ≤ nl.get_num_nodes := by
    unfold SolverNetlist.get_num_nodes
    exact Nat.le_trans (Nat.le_max_right _ _) (Nat.le_max_left _ _)
  unfold Capacitor.max_node at hm
  exact ⟨Nat.le_trans (Nat.le_trans (Nat.le_max_left _ _) hm) hb,
         Nat.le_trans (Nat.le_trans (Nat.le_max_right _ _) hm) hb⟩

theorem SolverNetlist.current_source_nodes_le (nl : SolverNetlist) (c : CurrentSource)
    (h : c ∈ nl.current_sources) :
    c.get_positive_node ≤ nl.get_num_nodes ∧ c.get_negative_node ≤ nl.get_num_nodes := by
  have hm : c.max_node ≤ (nl.current_sources.map CurrentSource.max_node).foldr max 0 :=
    le_foldr_max _ _ (List.mem_map_of_mem _ h)
  have hb : (nl.current_sources.map CurrentSource.max_node).foldr max 0 ≤
      nl.get_num_nodes := by
    unfold SolverNetlist.get_num_nodes
    exact Nat.le_trans (Nat.le_max_right _ _) (Nat.le_max_right _ _)
  unfold CurrentSource.max_node at hm
  exact ⟨Nat.le_trans (Nat.le_trans (Nat.le_max_left _ _) hm) hb,
         Nat.le_trans (Nat.le_trans (Nat.le_max_right _ _) hm) hb⟩

theorem XMatrix.get_variable_nodal_isSome (t : XMatrix) (hr : t.num_nodes ≤ t.x.rows)
    (hc : 0 < t.x.cols) (k : Nat) (hk : k ≤ t.num_nodes) :
    (t.get_variable (VariableIndex.NodalVoltage k)).isSome := by
  cases k with
  | zero => rfl
  | succ k' =>
    simp only [XMatrix.get_variable,
      VariableIndex.into_col_nodal t.num_nodes t.num_voltage_sources (k' + 1)
        (by omega) hk]
    show (t.x.get (k' + 1 - 1) 0).isSome = true
    rw [t.x.get_in_bounds (k' + 1 - 1) 0 (by omega) (by omega)]
    rfl

theorem XMatrix.get_variable_source_isSome (t : XMatrix)
    (hr : t.num_nodes + t.num_voltage_sources ≤ t.x.rows) (hc : 0 < t.x.cols) (j : Nat)
    (hj : j < t.num_voltage_sources) :
    (t.get_variable (VariableIndex.VoltageSourceCurrent j)).isSome := by
  simp only [XMatrix.get_variable,
    VariableIndex.into_col_source t.num_nodes t.num_voltage_sources j hj]
  show (t.x.get (t.num_nodes + j) 0).isSome = true
  rw [t.x.get_in_bounds (t.num_nodes + j) 0 (by omega) (by omega)]
  rfl

theorem BESolver.update_resistor_isSome (r : Resistor) (i : Nat) (sol : XMatrix) (dt : ℚ)
    (hp : (sol.get_variable (VariableIndex.NodalVoltage r.get_positive_node)).isSome)
    (hn : (sol.get_variable (VariableIndex.NodalVoltage r.get_negative_node)).isSome) :
    (BESolver.update_resistor r i sol dt).isSome := by
  obtain ⟨a, ha⟩ := Option.isSome_iff_exists.mp hp
  obtain ⟨b, hb⟩ := Option.isSome_iff_exists.mp hn
  simp [BESolver.update_resistor, ha, hb]

theorem BESolver.update_capacitor_isSome (c : Capacitor) (i : Nat) (sol : XMatrix) (dt : ℚ)
    (hp : (sol.get_variable (VariableIndex.NodalVoltage c.get_positive_node)).isSome)
    (hn : (sol.get_variable (VariableIndex.NodalVoltage c.get_negative_node)).isSome) :
    (BESolver.update_capacitor c i sol dt).isSome := by
  obtain ⟨a, ha⟩ := Option.isSome_iff_exists.mp hp
  obtain ⟨b, hb⟩ := Option.isSome_iff_exists.mp hn
  simp [BESolver.update_capacitor, ha, hb]

theorem BESolver.update_voltage_source_isSome (s : VoltageSource) (i : Nat) (sol : XMatrix)
    (dt : ℚ)
    (hi : (sol.get_variable (VariableIndex.VoltageSourceCurrent i)).isSome) :
    (BESolver.update_voltage_source s i sol dt).isSome := by
  obtain ⟨a, ha⟩ := Option.isSome_iff_exists.mp hi
  simp [BESolver.update_voltage_source, ha]

theorem BESolver.update_current_source_isSome (c : CurrentSource) (i : Nat) (sol : XMatrix)
    (dt : ℚ)
    (hp : (sol.get_variable (VariableIndex.NodalVoltage c.get_positive_node)).isSome)
    (hn : (sol.get_variable (VariableIndex.NodalVoltage c.get_negative_node)).isSome) :
    (BESolver.update_current_source c i sol dt).isSome := by
  obtain ⟨a, ha⟩ := Option.isSome_iff_exists.mp hp
  obtain ⟨b, hb⟩ := Option.isSome_iff_exists.mp hn
  simp [BESolver.update_current_source, ha, hb]

theorem updateList_snd_true {α : Type} (f : α → Nat → Option α) (l : List α) (s : Nat)
    (hf : ∀ k, (hk : k < l.length) → (f (l.get ⟨k, hk⟩) (s + k)).isSome) :
    (updateList f l s).2 = true := by
  induction l generalizing s with
  | nil => rfl
  | cons x xs ih =>
    have h0 := hf 0 (by simp)
    obtain ⟨x', hx'⟩ := Option.isSome_iff_exists.mp h0
    have hx'' : f x s = some x' := hx'
    simp only [updateList, hx'']
    apply ih (s + 1)
    intro k hk
    have h1 := hf (k + 1) (by simpa using Nat.succ_lt_succ hk)
    have harith : s + (k + 1) = s + 1 + k := by omega
    rw [harith] at h1
    simpa using h1

theorem updatePasses_all_true (nl : SolverNetlist) (sol : XMatrix) (dt : ℚ)
    (h1 : sol.num_nodes = nl.get_num_nodes)
    (h2 : sol.num_voltage_sources = nl.voltage_sources.length)
    (h3 : nl.get_num_nodes + nl.voltage_sources.length ≤ sol.x.rows)
    (h4 : 0 < sol.x.cols) :
    (updateList (fun r i => BESolver.update_resistor r i sol dt) nl.resistors 0).2 = true ∧
    (updateList (fun c i => BESolver.update_capacitor c i sol dt) nl.capacitors 0).2 =
      true ∧
    (updateList (fun v i => BESolver.update_voltage_source v i sol dt)
      nl.voltage_sources 0).2 = true ∧
    (updateList (fun c i => BESolver.update_current_source c i sol dt)
      nl.current_sources 0).2 = true := by
  have hrows : sol.num_nodes ≤ sol.x.rows := by omega
  refine ⟨?_, ?_, ?_, ?_⟩
  · apply updateList_snd_true
    intro k hk
    have hmem := List.get_mem nl.resistors k hk
    have hnode := nl.resistor_nodes_le _ hmem
    exact BESolver.update_resistor_isSome _ _ _ _
      (sol.get_variable_nodal_isSome hrows h4 _ (by omega))
      (sol.get_variable_nodal_isSome hrows h4 _ (by omega))
  · apply updateList_snd_true
    intro k hk
    have hmem := List.get_mem nl.capacitors k hk
    have hnode := nl.capacitor_nodes_le _ hmem
    exact BESolver.update_capacitor_isSome _ _ _ _
      (sol.get_variable_nodal_isSome hrows h4 _ (by omega))
      (sol.get_variable_nodal_isSome hrows h4 _ (by omega))
  · apply updateList_snd_true
    intro k hk
    exact BESolver.update_voltage_source_isSome _ _ _ _
      (sol.get_variable_source_isSome (by omega) h4 _ (by omega))
  · apply updateList_snd_true
    intro k hk
    have hmem := List.get_mem nl.current_sources k hk
    have hnode := nl.current_source_nodes_le _ hmem
    exact BESolver.update_current_source_isSome _ _ _ _
      (sol.get_variable_nodal_isSome hrows h4 _ (by omega))
      (sol.get_variable_nodal_isSome hrows h4 _ (by omega))



theorem foldl_r_dims (l : List (ℕ × Resistor)) (p : ABMatrix) (dt : ℚ) :
    (l.foldl (fun p ic => BESolver.stamp_resistor ic.2 ic.1 p dt) p).a.rows = p.a.rows ∧
    (l.foldl (fun p ic => BESolver.stamp_resistor ic.2 ic.1 p dt) p).a.cols = p.a.cols ∧
    (l.foldl (fun p ic => BESolver.stamp_resistor ic.2 ic.1 p dt) p).b.rows = p.b.rows ∧
    (l.foldl (fun p ic => BESolver.stamp_resistor ic.2 ic.1 p dt) p).b.cols = p.b.cols := by
  induction l generalizing p with
  | nil => exact ⟨rfl, rfl, rfl, rfl⟩
  | cons x xs ih =>
    have h1 := BESolver.stamp_resistor_dims x.2 x.1 p dt
    have h2 := ih (BESolver.stamp_resistor x.2 x.1 p dt)
    simp only [List.foldl_cons]
    omega

theorem foldl_cap_dims (l : List (ℕ × Capacitor)) (p : ABMatrix) (dt : ℚ) :
    (l.foldl (fun p ic => BESolver.stamp_capacitor ic.2 ic.1 p dt) p).a.rows = p.a.rows ∧
    (l.foldl (fun p ic => BESolver.stamp_capacitor ic.2 ic.1 p dt) p).a.cols = p.a.cols ∧
    (l.foldl (fun p ic => BESolver.stamp_capacitor ic.2 ic.1 p dt) p).b.rows = p.b.rows ∧
    (l.foldl (fun p ic => BESolver.stamp_capacitor ic.2 ic.1 p dt) p).b.cols = p.b.cols := by
  induction l generalizing p with
  | nil => exact ⟨rfl, rfl, rfl, rfl⟩
  | cons x xs ih =>
    have h1 := BESolver.stamp_capacitor_dims x.2 x.1 p dt
    have h2 := ih (BESolver.stamp_capacitor x.2 x.1 p dt)
    simp only [List.foldl_cons]
    omega

theorem foldl_vs_dims (l : List (ℕ × VoltageSource)) (p : ABMatrix) (dt : ℚ) :
    (l.foldl (fun p ic => BESolver.stamp_voltage_source ic.2 ic.1 p dt) p).a.rows = p.a.rows ∧
    (l.foldl (fun p ic => BESolver.stamp_voltage_source ic.2 ic.1 p dt) p).a.cols = p.a.cols ∧
    (l.foldl (fun p ic => BESolver.stamp_voltage_source ic.2 ic.1 p dt) p).b.rows = p.b.rows ∧
    (l.foldl (fun p ic => BESolver.stamp_voltage_source ic.2 ic.1 p dt) p).b.cols = p.b.cols := by
  induction l generalizing p with
  | nil => exact ⟨rfl, rfl, rfl, rfl⟩
  | cons x xs ih =>
    have h1 := BESolver.stamp_voltage_source_dims x.2 x.1 p dt
    have h2 := ih (BESolver.stamp_voltage_source x.2 x.1 p dt)
    simp only [List.foldl_cons]
    omega

theorem foldl_cs_dims (l : List (ℕ × CurrentSource)) (p : ABMatrix) (dt : ℚ) :
    (l.foldl (fun p ic => BESolver.stamp_current_source ic.2 ic.1 p dt) p).a.rows = p.a.rows ∧
    (l.foldl (fun p ic => BESolver.stamp_current_source ic.2 ic.1 p dt) p).a.cols = p.a.cols ∧
    (l.foldl (fun p ic => BESolver.stamp_current_source ic.2 ic.1 p dt) p).b.rows = p.b.rows ∧
    (l.foldl (fun p ic => BESolver.stamp_current_source ic.2 ic.1 p dt) p).b.cols = p.b.cols := by
  induction l generalizing p with
  | nil => exact ⟨rfl, rfl, rfl, rfl⟩
  | cons x xs ih =>
    have h1 := BESolver.stamp_current_source_dims x.2 x.1 p dt
    have h2 := ih (BESolver.stamp_current_source x.2 x.1 p dt)
    simp only [List.foldl_cons]
    omega

/-- C7: element state is written only by the post-solve update passes,
which run strictly after the matrix inverse succeeds and always complete
once it does; hence a failing `solve` — in particular one whose assembled
`A` has no inverse — returns the netlist exactly as it was, and the
update-pass panic outcome is unreachable. -/
theorem C7_failed_solve_leaves_state_untouched (nl : SolverNetlist) (dt : ℚ) :
    ((BESolver.solve nl dt).2.isSome → (BESolver.solve nl dt).1 = nl) ∧
    (BESolver.solve nl dt).2 ≠ some SolveStop.updatePanic := by
  simp only [BESolver.solve]
  split
  · exact ⟨fun _ => rfl, by simp⟩
  case _ ainv heq =>
    have d1 := foldl_r_dims nl.resistors.enum (ABMatrix.new nl.get_num_nodes nl.voltage_sources.length) dt
    have d2 := foldl_cap_dims nl.capacitors.enum
      (List.foldl (fun p ic => BESolver.stamp_resistor ic.2 ic.1 p dt)
      (ABMatrix.new nl.get_num_nodes nl.voltage_sources.length) nl.resistors.enum) dt
    have d3 := foldl_vs_dims nl.voltage_sources.enum
      (List.foldl (fun p ic => BESolver.stamp_capacitor ic.2 ic.1 p dt)
      (List.foldl (fun p ic => BESolver.stamp_resistor ic.2 ic.1 p dt)
      (ABMatrix.new nl.get_num_nodes nl.voltage_sources.length) nl.resistors.enum) nl.capacitors.enum) dt
    have d4 := foldl_cs_dims nl.current_sources.enum
      (List.foldl (fun p ic => BESolver.stamp_voltage_source ic.2 ic.1 p dt)
      (List.foldl (fun p ic => BESolver.stamp_capacitor ic.2 ic.1 p dt)
      (List.foldl (fun p ic => BESolver.stamp_resistor ic.2 ic.1 p dt)
      (ABMatrix.new nl.get_num_nodes nl.voltage_sources.length) nl.resistors.enum) nl.capacitors.enum) nl.voltage_sources.enum) dt
    have e0a : (ABMatrix.new nl.get_num_nodes nl.voltage_sources.length).a.rows =
        nl.get_num_nodes + nl.voltage_sources.length := rfl
    have e0bc : (ABMatrix.new nl.get_num_nodes nl.voltage_sources.length).b.cols = 1 := rfl
    have heqa : (List.foldl (fun p ic => BESolver.stamp_current_source ic.2 ic.1 p dt)
      (List.foldl (fun p ic => BESolver.stamp_voltage_source ic.2 ic.1 p dt)
      (List.foldl (fun p ic => BESolver.stamp_capacitor ic.2 ic.1 p dt)
      (List.foldl (fun p ic => BESolver.stamp_resistor ic.2 ic.1 p dt)
      (ABMatrix.new nl.get_num_nodes nl.voltage_sources.length) nl.resistors.enum) nl.capacitors.enum) nl.voltage_sources.enum) nl.current_sources.enum).a.tryInverse = some ainv := heq
    have hdim := DMat.tryInverse_dims _ _ heqa
    have hu := updatePasses_all_true nl
      (XMatrix.new (ainv.mul ((List.foldl (fun p ic => BESolver.stamp_current_source ic.2 ic.1 p dt)
      (List.foldl (fun p ic => BESolver.stamp_voltage_source ic.2 ic.1 p dt)
      (List.foldl (fun p ic => BESolver.stamp_capacitor ic.2 ic.1 p dt)
      (List.foldl (fun p ic => BESolver.stamp_resistor ic.2 ic.1 p dt)
      (ABMatrix.new nl.get_num_nodes nl.voltage_sources.length) nl.resistors.enum) nl.capacitors.enum) nl.voltage_sources.enum) nl.current_sources.enum).into_ab).2)
        nl.get_num_nodes nl.voltage_sources.length) dt rfl rfl
      (by
        show nl.get_num_nodes + nl.voltage_sources.length ≤ ainv.rows
        omega)
      (by
        show 0 < ((List.foldl (fun p ic => BESolver.stamp_current_source ic.2 ic.1 p dt)
      (List.foldl (fun p ic => BESolver.stamp_voltage_source ic.2 ic.1 p dt)
      (List.foldl (fun p ic => BESolver.stamp_capacitor ic.2 ic.1 p dt)
      (List.foldl (fun p ic => BESolver.stamp_resistor ic.2 ic.1 p dt)
      (ABMatrix.new nl.get_num_nodes nl.voltage_sources.length) nl.resistors.enum) nl.capacitors.enum) nl.voltage_sources.enum) nl.current_sources.enum).into_ab).2.cols
        show 0 < (List.foldl (fun p ic => BESolver.stamp_current_source ic.2 ic.1 p dt)
      (List.foldl (fun p ic => BESolver.stamp_voltage_source ic.2 ic.1 p dt)
      (List.foldl (fun p ic => BESolver.stamp_capacitor ic.2 ic.1 p dt)
      (List.foldl (fun p ic => BESolver.stamp_resistor ic.2 ic.1 p dt)
      (ABMatrix.new nl.get_num_nodes nl.voltage_sources.length) nl.resistors.enum) nl.capacitors.enum) nl.voltage_sources.enum) nl.current_sources.enum).b.cols
        omega)
    rw [if_pos hu.1, if_pos hu.2.1, if_pos hu.2.2.1, if_pos hu.2.2.2]
    exact ⟨fun h => by simp at h, by simp⟩

/-- Witness for C7: a floating resistor between nodes 1 and 2 assembles a
singular conductance matrix, so `solve` fails — and returns the netlist
unchanged. -/
theorem C7_failed_solve_leaves_state_untouched_witness :
    (BESolver.solve ⟨[Resistor.new 1 2 1], [], [], []⟩ 1).2.isSome = true ∧
    (BESolver.solve ⟨[Resistor.new 1 2 1], [], [], []⟩ 1).1 =
      ⟨[Resistor.new 1 2 1], [], [], []⟩ := by
  have hdet :
      (BESolver.stamp_resistor (Resistor.new 1 2 1) 0 (ABMatrix.new 2 0) 1).a.det = 0 := by
    have e00 : (BESolver.stamp_resistor (Resistor.new 1 2 1) 0
        (ABMatrix.new 2 0) 1).a.entry 0 0 = 0 + 1 / 1 := rfl
    have e01 : (BESolver.stamp_resistor (Resistor.new 1 2 1) 0
        (ABMatrix.new 2 0) 1).a.entry 0 1 = 0 + -(1 / 1) := rfl
    have e10 : (BESolver.stamp_resistor (Resistor.new 1 2 1) 0
        (ABMatrix.new 2 0) 1).a.entry 1 0 = 0 + -(1 / 1) := rfl
    have e11 : (BESolver.stamp_resistor (Resistor.new 1 2 1) 0
        (ABMatrix.new 2 0) 1).a.entry 1 1 = 0 + 1 / 1 := rfl
    show detAux 2
      (BESolver.stamp_resistor (Resistor.new 1 2 1) 0 (ABMatrix.new 2 0) 1).a.entry = 0
    norm_num [detAux, Finset.sum_range_succ, Finset.sum_range_zero, e00, e01, e10, e11]
  have hinv :
      (BESolver.stamp_resistor (Resistor.new 1 2 1) 0
        (ABMatrix.new 2 0) 1).a.tryInverse = none := by
    unfold DMat.tryInverse
    exact if_neg (fun h => h.2 hdet)
  have hs : (BESolver.solve ⟨[Resistor.new 1 2 1], [], [], []⟩ 1).2.isSome = true := by
    simp only [BESolver.solve]
    split
    · rfl
    case _ ainv heq =>
      have heq' : (BESolver.stamp_resistor (Resistor.new 1 2 1) 0
          (ABMatrix.new 2 0) 1).a.tryInverse = some ainv := heq
      rw [hinv] at heq'
      cases heq'
  exact ⟨hs, (C7_failed_solve_leaves_state_untouched ⟨[Resistor.new 1 2 1], [], [], []⟩ 1).1
    hs⟩

theorem solve_accepts_negative_resistance :
    (BESolver.solve ⟨[Resistor.new 1 0 (-2)], [], [], []⟩ 1).2 = none := by
  have hdet :
      (BESolver.stamp_resistor (Resistor.new 1 0 (-2)) 0 (ABMatrix.new 1 0) 1).a.det ≠ 0 := by
    have e00 : (BESolver.stamp_resistor (Resistor.new 1 0 (-2)) 0
        (ABMatrix.new 1 0) 1).a.entry 0 0 = 0 + 1 / -2 := rfl
    show detAux 1
      (BESolver.stamp_resistor (Resistor.new 1 0 (-2)) 0 (ABMatrix.new 1 0) 1).a.entry ≠ 0
    norm_num [detAux, Finset.sum_range_succ, Finset.sum_range_zero, e00]
  have hinv :
      (BESolver.stamp_resistor (Resistor.new 1 0 (-2)) 0
        (ABMatrix.new 1 0) 1).a.tryInverse = some
          ⟨(BESolver.stamp_resistor (Resistor.new 1 0 (-2)) 0 (ABMatrix.new 1 0) 1).a.rows,
           (BESolver.stamp_resistor (Resistor.new 1 0 (-2)) 0 (ABMatrix.new 1 0) 1).a.rows,
           fun i j => (BESolver.stamp_resistor (Resistor.new 1 0 (-2)) 0
             (ABMatrix.new 1 0) 1).a.cofactorInv i j⟩ := by
    unfold DMat.tryInverse
    rw [if_pos ⟨rfl, hdet⟩]
  simp only [BESolver.solve]
  split
  case _ heq =>
    have heq' : (BESolver.stamp_resistor (Resistor.new 1 0 (-2)) 0
        (ABMatrix.new 1 0) 1).a.tryInverse = none := heq
    rw [hinv] at heq'
    exact Option.noConfusion heq'
  case _ ainv heq =>
    have heq' : (BESolver.stamp_resistor (Resistor.new 1 0 (-2)) 0
        (ABMatrix.new 1 0) 1).a.tryInverse = some ainv := heq
    rw [hinv] at heq'
    injection heq' with h
    subst h
    rfl

/-- C8 counterexample: the claim says a netlist containing a component
with `R ≤ 0` is rejected with an `InvalidNetlist` error at construction
or at the first solve, before any stamping occurs.  In the code,
`Resistor::new(1, 0, -2.0)` constructs normally (the resistance is stored
verbatim) and the first `solve` on that netlist runs to completion with
no failure of any kind — it stamps, inverts and updates. -/
theorem C8_counterexample_no_rejection :
    (Resistor.new 1 0 (-2)).resistance = -2 ∧
    (BESolver.solve ⟨[Resistor.new 1 0 (-2)], [], [], []⟩ 1).2 = none := by
  exact ⟨rfl, solve_accepts_negative_resistance⟩

/-- C8 (amended): no parameter validation exists anywhere: every
constructor stores its parameters verbatim with no sign check (so
`R ≤ 0`, `C ≤ 0`, `L ≤ 0`, `Vt ≤ 0`, `η ≤ 0` are all accepted), node ids
are unsigned by type, the solver's only failure modes are the singular
matrix panic and the update-pass panic (there is no `InvalidNetlist`
error), and a first solve over a netlist with a negative resistance
proceeds through stamping and completes without failing. -/
theorem C8_no_validation_constructors_store_verbatim :
    (∀ (p n : Nat) (r : ℚ), Resistor.new p n r = ⟨p, n, r, 0⟩) ∧
    (∀ (p n : Nat) (c v0 : ℚ), Capacitor.new p n c v0 = ⟨p, n, c, v0, 0⟩) ∧
    (∀ (p n : Nat) (l i0 : ℚ), Inductor.new p n l i0 = ⟨p, n, l, i0, 0⟩) ∧
    (∀ (p n : Nat) (vv : ℚ), VoltageSource.new p n vv = ⟨p, n, vv, 0⟩) ∧
    (∀ (p n : Nat) (i : ℚ), CurrentSource.new p n i = ⟨p, n, i, 0⟩) ∧
    (∀ (p n : Nat) (saturation eta vt : ℝ),
      Diode.new p n saturation eta vt = ⟨p, n, saturation, eta, vt, 0⟩) ∧
    (∀ e : SolveStop, e = SolveStop.singularPanic ∨ e = SolveStop.updatePanic) ∧
    (BESolver.solve ⟨[Resistor.new 1 0 (-2)], [], [], []⟩ 1).2 = none := by
  refine ⟨fun _ _ _ => rfl, fun _ _ _ _ => rfl, fun _ _ _ _ => rfl, fun _ _ _ => rfl,
    fun _ _ _ => rfl, fun _ _ _ _ _ => rfl, ?_, solve_accepts_negative_resistance⟩
  intro e
  cases e
  · exact Or.inl rfl
  · exact Or.inr rfl

theorem updateList_fst_map {α β : Type} (f : α → Nat → Option α) (g : α → β)
    (hg : ∀ x i y, f x i = some y → g y = g x) (l : List α) (s : Nat) :
    ((updateList f l s).1).map g = l.map g := by
  induction l generalizing s with
  | nil => rfl
  | cons x xs ih =>
    cases h : f x s with
    | none => simp only [updateList, h]
    | some x' =>
      simp only [updateList, h, List.map_cons]
      rw [hg x s x' h, ih (s + 1)]

theorem BESolver.update_resistor_statics (r : Resistor) (i : Nat) (sol : XMatrix) (dt : ℚ)
    (r' : Resistor) (h : BESolver.update_resistor r i sol dt = some r') :
    r'.positive_node = r.positive_node ∧ r'.negative_node = r.negative_node ∧
    r'.resistance = r.resistance := by
  unfold BESolver.update_resistor at h
  cases hvp : sol.get_variable (VariableIndex.NodalVoltage r.get_positive_node) with
  | none => simp [hvp] at h
  | some vp =>
    cases hvn : sol.get_variable (VariableIndex.NodalVoltage r.get_negative_node) with
    | none => simp [hvp, hvn] at h
    | some vn =>
      simp only [hvp, hvn] at h
      injection h with h
      subst h
      exact ⟨rfl, rfl, rfl⟩

theorem BESolver.update_capacitor_statics (c : Capacitor) (i : Nat) (sol : XMatrix) (dt : ℚ)
    (c' : Capacitor) (h : BESolver.update_capacitor c i sol dt = some c') :
    c'.positive_node = c.positive_node ∧ c'.negative_node = c.negative_node ∧
    c'.capacitance = c.capacitance := by
  unfold BESolver.update_capacitor at h
  cases hvp : sol.get_variable (VariableIndex.NodalVoltage c.get_positive_node) with
  | none => simp [hvp] at h
  | some vp =>
    cases hvn : sol.get_variable (VariableIndex.NodalVoltage c.get_negative_node) with
    | none => simp [hvp, hvn] at h
    | some vn =>
      simp only [hvp, hvn] at h
      injection h with h
      subst h
      exact ⟨rfl, rfl, rfl⟩

theorem BESolver.update_voltage_source_statics (s : VoltageSource) (i : Nat)
    (sol : XMatrix) (dt : ℚ) (s' : VoltageSource)
    (h : BESolver.update_voltage_source s i sol dt = some s') :
    s'.positive_node = s.positive_node ∧ s'.negative_node = s.negative_node ∧
    s'.voltage = s.voltage := by
  unfold BESolver.update_voltage_source at h
  cases hiv : sol.get_variable (VariableIndex.VoltageSourceCurrent i) with
  | none => simp [hiv] at h
  | some iv =>
    simp only [hiv] at h
    injection h with h
    subst h
    exact ⟨rfl, rfl, rfl⟩

theorem BESolver.update_current_source_statics (c : CurrentSource) (i : Nat)
    (sol : XMatrix) (dt : ℚ) (c' : CurrentSource)
    (h : BESolver.update_current_source c i sol dt = some c') :
    c'.positive_node = c.positive_node ∧ c'.negative_node = c.negative_node ∧
    c'.current = c.current := by
  unfold BESolver.update_current_source at h
  cases hvp : sol.get_variable (VariableIndex.NodalVoltage c.get_positive_node) with
  | none => simp [hvp] at h
  | some vp =>
    cases hvn : sol.get_variable (VariableIndex.NodalVoltage c.get_negative_node) with
    | none => simp [hvp, hvn] at h
    | some vn =>
      simp only [hvp, hvn] at h
      injection h with h
      subst h
      exact ⟨rfl, rfl, rfl⟩

theorem updateList_resistor_statics (sol : XMatrix) (dt : ℚ) (l : List Resistor) (s : Nat) :
    ((updateList (fun r i => BESolver.update_resistor r i sol dt) l s).1).map
        (fun r => (r.positive_node, r.negative_node, r.resistance)) =
      l.map (fun r => (r.positive_node, r.negative_node, r.resistance)) :=
  updateList_fst_map _ _ (fun x i y hy => by
    obtain ⟨h1, h2, h3⟩ := BESolver.update_resistor_statics x i sol dt y hy
    simp [h1, h2, h3]) l s

theorem updateList_capacitor_statics (sol : XMatrix) (dt : ℚ) (l : List Capacitor)
    (s : Nat) :
    ((updateList (fun c i => BESolver.update_capacitor c i sol dt) l s).1).map
        (fun c => (c.positive_node, c.negative_node, c.capacitance)) =
      l.map (fun c => (c.positive_node, c.negative_node, c.capacitance)) :=
  updateList_fst_map _ _ (fun x i y hy => by
    obtain ⟨h1, h2, h3⟩ := BESolver.update_capacitor_statics x i sol dt y hy
    simp [h1, h2, h3]) l s

theorem updateList_voltage_source_statics (sol : XMatrix) (dt : ℚ)
    (l : List VoltageSource) (s : Nat) :
    ((updateList (fun v i => BESolver.update_voltage_source v i sol dt) l s).1).map
        (fun v => (v.positive_node, v.negative_node, v.voltage)) =
      l.map (fun v => (v.positive_node, v.negative_node, v.voltage)) :=
  updateList_fst_map _ _ (fun x i y hy => by
    obtain ⟨h1, h2, h3⟩ := BESolver.update_voltage_source_statics x i sol dt y hy
    simp [h1, h2, h3]) l s

theorem updateList_current_source_statics (sol : XMatrix) (dt : ℚ)
    (l : List CurrentSource) (s : Nat) :
    ((updateList (fun c i => BESolver.update_current_source c i sol dt) l s).1).map
        (fun c => (c.positive_node, c.negative_node, c.current)) =
      l.map (fun c => (c.positive_node, c.negative_node, c.current)) :=
  updateList_fst_map _ _ (fun x i y hy => by
    obtain ⟨h1, h2, h3⟩ := BESolver.update_current_source_statics x i sol dt y hy
    simp [h1, h2, h3]) l s

theorem Resistor.resistor_update_statics (r : Resistor) (xv : XMatrixView) (dt : ℚ) (r' : Resistor)
    (h : r.update xv dt = some r') :
    r'.positive_node = r.positive_node ∧ r'.negative_node = r.negative_node ∧
    r'.resistance = r.resistance := by
  unfold Resistor.update at h
  cases hvp : xv.get_variable (ViewVariableIndex.NodeVoltage r.get_positive_node) with
  | none => simp [hvp] at h
  | some vp =>
    cases hvn : xv.get_variable (ViewVariableIndex.NodeVoltage r.get_negative_node) with
    | none => simp [hvp, hvn] at h
    | some vn =>
      simp only [hvp, hvn] at h
      injection h with h
      subst h
      exact ⟨rfl, rfl, rfl⟩

theorem Capacitor.capacitor_update_statics (c : Capacitor) (xv : XMatrixView) (dt : ℚ)
    (c' : Capacitor) (h : c.update xv dt = some c') :
    c'.positive_node = c.positive_node ∧ c'.negative_node = c.negative_node ∧
    c'.capacitance = c.capacitance := by
  unfold Capacitor.update at h
  cases hvp : xv.get_variable (ViewVariableIndex.NodeVoltage c.get_positive_node) with
  | none => simp [hvp] at h
  | some vp =>
    cases hvn : xv.get_variable (ViewVariableIndex.NodeVoltage c.get_negative_node) with
    | none => simp [hvp, hvn] at h
    | some vn =>
      simp only [hvp, hvn] at h
      injection h with h
      subst h
      exact ⟨rfl, rfl, rfl⟩

theorem Inductor.inductor_update_statics (l : Inductor) (xv : XMatrixView) (dt : ℚ) (l' : Inductor)
    (h : l.update xv dt = some l') :
    l'.positive_node = l.positive_node ∧ l'.negative_node = l.negative_node ∧
    l'.inductance = l.inductance := by
  unfold Inductor.update at h
  cases hvp : xv.get_variable (ViewVariableIndex.NodeVoltage l.get_positive_node) with
  | none => simp [hvp] at h
  | some vp =>
    cases hvn : xv.get_variable (ViewVariableIndex.NodeVoltage l.get_negative_node) with
    | none => simp [hvp, hvn] at h
    | some vn =>
      simp only [hvp, hvn] at h
      injection h with h
      subst h
      exact ⟨rfl, rfl, rfl⟩

theorem VoltageSource.voltage_source_update_statics (s : VoltageSource) (xv : XMatrixView) (dt : ℚ)
    (s' : VoltageSource) (h : s.update xv dt = some s') :
    s'.positive_node = s.positive_node ∧ s'.negative_node = s.negative_node ∧
    s'.voltage = s.voltage := by
  unfold VoltageSource.update at h
  cases hiv : xv.get_variable (ViewVariableIndex.SpecificVariable 0) with
  | none => simp [hiv] at h
  | some iv =>
    simp only [hiv] at h
    injection h with h
    subst h
    exact ⟨rfl, rfl, rfl⟩

theorem CurrentSource.current_source_update_statics (c : CurrentSource) (xv : XMatrixView) (dt : ℚ)
    (c' : CurrentSource) (h : c.update xv dt = some c') :
    c'.positive_node = c.positive_node ∧ c'.negative_node = c.negative_node ∧
    c'.current = c.current := by
  unfold CurrentSource.update at h
  cases hvp : xv.get_variable (ViewVariableIndex.NodeVoltage c.get_positive_node) with
  | none => simp [hvp] at h
  | some vp =>
    cases hvn : xv.get_variable (ViewVariableIndex.NodeVoltage c.get_negative_node) with
    | none => simp [hvp, hvn] at h
    | some vn =>
      simp only [hvp, hvn] at h
      injection h with h
      subst h
      exact ⟨rfl, rfl, rfl⟩

/-- C10: `solve` never modifies terminal node ids or static parameters:
whatever path the call takes, every resistor keeps its nodes and
resistance, every capacitor its nodes and capacitance, every voltage
source its nodes and source voltage, every current source its nodes and
source current; and each element's `Stampable::update` — the only writer
of element state — preserves the static fields of all five element kinds
(only the operating-point fields are written). -/
theorem C10_solve_preserves_static_parameters (nl : SolverNetlist) (dt : ℚ) :
    ((BESolver.solve nl dt).1.resistors.map
        (fun r => (r.positive_node, r.negative_node, r.resistance)) =
      nl.resistors.map (fun r => (r.positive_node, r.negative_node, r.resistance))) ∧
    ((BESolver.solve nl dt).1.capacitors.map
        (fun c => (c.positive_node, c.negative_node, c.capacitance)) =
      nl.capacitors.map (fun c => (c.positive_node, c.negative_node, c.capacitance))) ∧
    ((BESolver.solve nl dt).1.voltage_sources.map
        (fun v => (v.positive_node, v.negative_node, v.voltage)) =
      nl.voltage_sources.map (fun v => (v.positive_node, v.negative_node, v.voltage))) ∧
    ((BESolver.solve nl dt).1.current_sources.map
        (fun c => (c.positive_node, c.negative_node, c.current)) =
      nl.current_sources.map (fun c => (c.positive_node, c.negative_node, c.current))) ∧
    (∀ (r : Resistor) (xv : XMatrixView) (dt' : ℚ) (r' : Resistor),
      r.update xv dt' = some r' →
      r'.positive_node = r.positive_node ∧ r'.negative_node = r.negative_node ∧
        r'.resistance = r.resistance) ∧
    (∀ (c : Capacitor) (xv : XMatrixView) (dt' : ℚ) (c' : Capacitor),
      c.update xv dt' = some c' →
      c'.positive_node = c.positive_node ∧ c'.negative_node = c.negative_node ∧
        c'.capacitance = c.capacitance) ∧
    (∀ (l : Inductor) (xv : XMatrixView) (dt' : ℚ) (l' : Inductor),
      l.update xv dt' = some l' →
      l'.positive_node = l.positive_node ∧ l'.negative_node = l.negative_node ∧
        l'.inductance = l.inductance) ∧
    (∀ (s : VoltageSource) (xv : XMatrixView) (dt' : ℚ) (s' : VoltageSource),
      s.update xv dt' = some s' →
      s'.positive_node = s.positive_node ∧ s'.negative_node = s.negative_node ∧
        s'.voltage = s.voltage) ∧
    (∀ (c : CurrentSource) (xv : XMatrixView) (dt' : ℚ) (c' : CurrentSource),
      c.update xv dt' = some c' →
      c'.positive_node = c.positive_node ∧ c'.negative_node = c.negative_node ∧
        c'.current = c.current) := by
  refine ⟨?_, ?_, ?_, ?_,
    fun r xv dt' r' h => r.resistor_update_statics xv dt' r' h,
    fun c xv dt' c' h => c.capacitor_update_statics xv dt' c' h,
    fun l xv dt' l' h => l.inductor_update_statics xv dt' l' h,
    fun s xv dt' s' h => s.voltage_source_update_statics xv dt' s' h,
    fun c xv dt' c' h => c.current_source_update_statics xv dt' c' h⟩ <;>
  · simp only [BESolver.solve]
    split
    · rfl
    · split
      · split
        · split
          · split
            · first
                | exact updateList_resistor_statics _ _ _ _
                | exact updateList_capacitor_statics _ _ _ _
                | exact updateList_voltage_source_statics _ _ _ _
                | exact updateList_current_source_statics _ _ _ _
            · first
                | exact updateList_resistor_statics _ _ _ _
                | exact updateList_capacitor_statics _ _ _ _
                | exact updateList_voltage_source_statics _ _ _ _
                | exact updateList_current_source_statics _ _ _ _
          · first
              | rfl
              | exact updateList_resistor_statics _ _ _ _
              | exact updateList_capacitor_statics _ _ _ _
              | exact updateList_voltage_source_statics _ _ _ _
        · first
            | rfl
            | exact updateList_resistor_statics _ _ _ _
            | exact updateList_capacitor_statics _ _ _ _
      · first
          | rfl
          | exact updateList_resistor_statics _ _ _ _

/-- Witness for C10: running the inductor update at a concrete solution
view rewrites only the operating point — the produced inductor keeps
inductance 4 and positive node 1. -/
theorem C10_solve_preserves_static_parameters_witness :
    (Inductor.mk 1 2 4 ((10 - 20) * 1 / 4 + 7) (10 - 20)).inductance = 4 ∧
    (Inductor.mk 1 2 4 ((10 - 20) * 1 / 4 + 7) (10 - 20)).positive_node = 1 := by
  have h := (C10_solve_preserves_static_parameters ⟨[], [], [], []⟩ 1).2.2.2.2.2.2.1
    (Inductor.mk 1 2 4 7 0) ⟨⟨2, 1, fun i _ => if i = 0 then 10 else 20⟩, 2, 0, 2⟩ 1
    (Inductor.mk 1 2 4 ((10 - 20) * 1 / 4 + 7) (10 - 20)) rfl
  exact ⟨h.2.2, h.1⟩

theorem stepN_succ_of_step (step : List ℚ → Option (List ℚ)) (i : Nat) (x x1 : List ℚ)
    (hx : step x = some x1) : stepN step (i + 1) x = stepN step i x1 := by
  simp only [stepN, hx, Option.some_bind]

theorem newtonLoop_after (step : List ℚ → Option (List ℚ)) (n : Nat) :
    ∀ (fuel : Nat) (x z : List ℚ),
    (∀ i, i < n → ∃ y y', stepN step i x = some y ∧ step y = some y' ∧
      ¬relChange y y' < 1 / 10000) →
    stepN step n x = some z → n ≤ fuel →
    newtonLoop step fuel x = newtonLoop step (fuel - n) z := by
  induction n with
  | zero =>
    intro fuel x z _ hz _
    have hx : x = z := by
      have : some x = some z := hz
      injection this
    subst hx
    rfl
  | succ n ih =>
    intro fuel x z h hz hn
    obtain ⟨y0, y1, hy0, hy1, hy2⟩ := h 0 (by omega)
    have hxy0 : x = y0 := by
      have : some x = some y0 := hy0
      injection this
    subst hxy0
    cases fuel with
    | zero => omega
    | succ f =>
      have hstep : newtonLoop step (f + 1) x = newtonLoop step f y1 := by
        simp only [newtonLoop, hy1]
        rw [if_neg hy2]
      rw [hstep]
      have hz' : stepN step n y1 = some z := by
        rw [← stepN_succ_of_step step n x y1 hy1]
        exact hz
      have h' : ∀ i, i < n → ∃ y y', stepN step i y1 = some y ∧ step y = some y' ∧
          ¬relChange y y' < 1 / 10000 := by
        intro i hi
        obtain ⟨w, w', hw, hw', hw2⟩ := h (i + 1) (by omega)
        rw [stepN_succ_of_step step i x y1 hy1] at hw
        exact ⟨w, w', hw, hw', hw2⟩
      have := ih f y1 z h' hz' (by omega)
      rw [this]
      congr 1
      omega

/-- C1: the Newton driver (modelled from the spec, its code being absent
from the sources) re-runs the assemble-and-solve step on each iteration:
a singular assembly aborts with `SingularMatrix`; a solved iterate `x'`
whose component-wise relative change against the previous `x` is below
the fixed relative tolerance `10⁻⁴` ends the loop at once with `x'`;
otherwise the loop continues on `x'` with one unit of the 1000-iteration
budget spent; an exhausted budget fails with `NonConvergence` carrying
the last iterate.  Globally: `newtonSolve` runs the loop with cap 1000;
if every one of the first 1000 rounds solves but misses the tolerance it
fails with `NonConvergence` carrying the 1000-th iterate, and if the
rounds before `k < 1000` all miss the tolerance while round `k` meets
it, it succeeds with that round's iterate. -/
theorem C1_newton_loop_behaviour (step : List ℚ → Option (List ℚ)) (x : List ℚ) :
    (∀ fuel, step x = none →
      newtonLoop step (fuel + 1) x = Except.error NewtonError.SingularMatrix) ∧
    (∀ fuel x', step x = some x' → relChange x x' < 1 / 10000 →
      newtonLoop step (fuel + 1) x = Except.ok x') ∧
    (∀ fuel x', step x = some x' → ¬relChange x x' < 1 / 10000 →
      newtonLoop step (fuel + 1) x = newtonLoop step fuel x') ∧
    (newtonLoop step 0 x = Except.error (NewtonError.NonConvergence x)) ∧
    (newtonSolve step x = newtonLoop step 1000 x) ∧
    (∀ z, (∀ i, i < 1000 → ∃ y y', stepN step i x = some y ∧ step y = some y' ∧
        ¬relChange y y' < 1 / 10000) →
      stepN step 1000 x = some z →
      newtonSolve step x = Except.error (NewtonError.NonConvergence z)) ∧
    (∀ k y y', k < 1000 →
      (∀ i, i < k → ∃ w w', stepN step i x = some w ∧ step w = some w' ∧
        ¬relChange w w' < 1 / 10000) →
      stepN step k x = some y → step y = some y' → relChange y y' < 1 / 10000 →
      newtonSolve step x = Except.ok y') := by
  refine ⟨?_, ?_, ?_, rfl, rfl, ?_, ?_⟩
  · intro fuel h
    simp only [newtonLoop, h]
  · intro fuel x' h htol
    simp only [newtonLoop, h]
    rw [if_pos htol]
  · intro fuel x' h htol
    simp only [newtonLoop, h]
    rw [if_neg htol]
  · intro z h hz
    have := newtonLoop_after step 1000 1000 x z h hz (by omega)
    rw [newtonSolve, this]
    rfl
  · intro k y y' hk h hy hstep htol
    have := newtonLoop_after step k 1000 x y h hy (by omega)
    rw [newtonSolve, this]
    obtain ⟨m, hm⟩ : ∃ m, 1000 - k = m + 1 := ⟨1000 - k - 1, by omega⟩
    rw [hm]
    simp only [newtonLoop, hstep]
    rw [if_pos htol]

/-- Witness for C1: a step function that is always singular makes the
driver fail with `SingularMatrix` at once, and an identity step (zero
relative change) converges on the first iteration. -/
theorem C1_newton_loop_behaviour_witness :
    newtonSolve (fun _ => none) [0] = Except.error NewtonError.SingularMatrix ∧
    newtonSolve (fun y => some y) [1] = Except.ok [1] := by
  have h1 := C1_newton_loop_behaviour (fun _ => none) [0]
  have h2 := C1_newton_loop_behaviour (fun y => some y) [1]
  constructor
  · rw [h1.2.2.2.2.1]
    exact h1.1 999 rfl
  · rw [h2.2.2.2.2.1]
    exact h2.2.1 999 [1] rfl (by norm_num [relChange])
